import Mathlib

/-!
Verification of the NFLCoachingTree scraper scripts.

This file gives a shallow embedding, in Lean 4, of the pure data-transforming
core of the three Python scripts in `src/scraper/`:

* `scrape_coaches.py`   — the crawl engine and its extractors (namespace `Scrape`),
* `patch_klint_kubiak.py` — the single-coach patch script (namespace `PatchKK`),
* `patch_missing_connections.py` — the manual-connection patch script (namespace `PatchMC`).

Conventions of the embedding:

* Python strings are Lean `String`s; `str.lower()` is modelled as ASCII
  lowercasing (all substrings the scripts test for are ASCII), `str.strip()`
  as whitespace trimming on the character list, and the substring operator
  `in` as list-infix testing on the underlying character lists.
* The regular expressions used by the scripts — the year-range pattern
  `(\d{4})\s*[-–]\s*(\d{4}|present)` (IGNORECASE), the bare-year pattern
  `(\d{4})`, the split pattern `\d{4}`, and the parenthesised-year pattern
  `\((\d{4})\)` — are embedded as specialised character-list scanners with
  Python's leftmost, non-overlapping match semantics.  `\d` is modelled as
  an ASCII digit and `\s` as whitespace.
* HTML documents are modelled at the level the extractors consume them:
  a page is an optional infobox (a list of header/data-cell rows) plus the
  element stream (`p` / `ul` / `ol`) of its coaching-tree section; the
  BeautifulSoup calls that produce these streams are not re-modelled.
* Network fetches are parameters (`String → Option PageData`) or explicit
  outcome values; file reading/writing and console printing are out of scope.
-/

/-- ASCII lowercasing of one character, modelling Python `str.lower()` on the
ASCII inputs the scripts test for. -/
def lowerChar (c : Char) : Char :=
  if 'A' ≤ c ∧ c ≤ 'Z' then Char.ofNat (c.toNat + 32) else c

/-- ASCII lowercasing of a string. -/
def lowerStr (s : String) : String :=
  ⟨s.data.map lowerChar⟩

/-- Does `needle` occur as a contiguous sublist of `hay`? -/
def listInfixOf (needle : List Char) : List Char → Bool
  | [] => needle.isPrefixOf []
  | c :: rest => needle.isPrefixOf (c :: rest) || listInfixOf needle rest

/-- Python substring test `needle in hay`, via list infix. -/
def strContains (hay needle : String) : Bool :=
  listInfixOf needle.data hay.data

/-- Value of an ASCII digit character. -/
def digitVal (c : Char) : Nat :=
  c.toNat - 48

/-- Numeric value of a four-digit group, as Python `int` on the four matched
digit characters. -/
def val4 (a b c d : Char) : Nat :=
  ((digitVal a * 10 + digitVal b) * 10 + digitVal c) * 10 + digitVal d

/-- Numeric value of a digit-character list (used on four-digit groups). -/
def natOfDigits (cs : List Char) : Nat :=
  cs.foldl (fun acc c => acc * 10 + digitVal c) 0

/-- Case-insensitive match of the literal `present` at the head of the input:
returns the matched characters (original case) and the rest.  This is the
second alternative of `(\d{4}|present)` under `re.IGNORECASE`. -/
def matchPresentAt (cs : List Char) : Option (List Char × List Char) :=
  match cs with
  | p1 :: p2 :: p3 :: p4 :: p5 :: p6 :: p7 :: rest =>
    if (([p1, p2, p3, p4, p5, p6, p7].map lowerChar) = "present".data) then
      some ([p1, p2, p3, p4, p5, p6, p7], rest)
    else
      none
  | _ => none

/-- Match the second-group alternation `(\d{4}|present)` of the year-range
regex at the head of the input: four digits first, else the literal
`present` case-insensitively.  Returns the first group unchanged together
with the captured second group and the remaining input. -/
def matchTail (g1 : List Char) : List Char → Option (List Char × List Char × List Char)
  | e :: f :: g :: h :: after =>
    if e.isDigit ∧ f.isDigit ∧ g.isDigit ∧ h.isDigit then
      some (g1, [e, f, g, h], after)
    else
      match matchPresentAt (e :: f :: g :: h :: after) with
      | some (grp, after2) => some (g1, grp, after2)
      | none => none
  | r3 =>
    match matchPresentAt r3 with
    | some (grp, after2) => some (g1, grp, after2)
    | none => none

/-- Attempt to match the year-range regex `(\d{4})\s*[-–]\s*(\d{4}|present)`
(IGNORECASE) anchored at the head of the input.  On success, returns the two
captured groups (as character lists, the second in its original case) and the
input remaining after the match. -/
def matchRangeAt (cs : List Char) : Option (List Char × List Char × List Char) :=
  match cs with
  | a :: b :: c :: d :: rest =>
    if a.isDigit ∧ b.isDigit ∧ c.isDigit ∧ d.isDigit then
      match rest.dropWhile Char.isWhitespace with
      | dash :: r2 =>
        if dash = '-' ∨ dash = '–' then
          matchTail [a, b, c, d] (r2.dropWhile Char.isWhitespace)
        else none
      | [] => none
    else none
  | _ => none

/-- All matches of the year-range regex in the input, leftmost and
non-overlapping, as Python `re.findall`.  The fuel argument is the length of
the input; every step consumes at least one character. -/
def findRangesAux : Nat → List Char → List (List Char × List Char)
  | 0, _ => []
  | _, [] => []
  | fuel + 1, c :: rest =>
    match matchRangeAt (c :: rest) with
    | some (g1, g2, after) => (g1, g2) :: findRangesAux fuel after
    | none => findRangesAux fuel rest

/-- Python `re.findall(r"(\d{4})\s*[-–]\s*(\d{4}|present)", text, re.IGNORECASE)`. -/
def findRanges (cs : List Char) : List (List Char × List Char) :=
  findRangesAux cs.length cs

/-- First match of the year-range regex, as Python `re.search` of the same
pattern: `none` when the pattern occurs nowhere. -/
def searchRange : List Char → Option (List Char × List Char)
  | [] => none
  | c :: rest =>
    match matchRangeAt (c :: rest) with
    | some (g1, g2, _) => some (g1, g2)
    | none => searchRange rest

/-- First match of the bare four-digit-year regex `(\d{4})`, as the head of
Python `re.findall(r"(\d{4})", text)`. -/
def firstFourDigits : List Char → Option (List Char)
  | [] => none
  | a :: rest =>
    match rest with
    | b :: c :: d :: _ =>
      if a.isDigit ∧ b.isDigit ∧ c.isDigit ∧ d.isDigit then some [a, b, c, d]
      else firstFourDigits rest
    | _ => none

/-- Text before the first match of `\d{4}`, as Python
`re.split(r"\d{4}", text)[0]` (the whole text when there is no match). -/
def beforeFirstFour : List Char → List Char
  | [] => []
  | a :: rest =>
    match rest with
    | b :: c :: d :: _ =>
      if a.isDigit ∧ b.isDigit ∧ c.isDigit ∧ d.isDigit then []
      else a :: beforeFirstFour rest
    | _ => a :: beforeFirstFour rest

/-- Attempt to match `\((\d{4})\)` anchored at the head of the input,
returning the captured digit group. -/
def matchParenYearAt : List Char → Option (List Char)
  | '(' :: a :: b :: c :: d :: ')' :: _ =>
    if a.isDigit ∧ b.isDigit ∧ c.isDigit ∧ d.isDigit then some [a, b, c, d]
    else none
  | _ => none

/-- First match of `\((\d{4})\)`, as Python `re.search(r"\((\d{4})\)", text)`,
returning the captured digit group. -/
def searchParenYear : List Char → Option (List Char)
  | [] => none
  | c :: rest =>
    match matchParenYearAt (c :: rest) with
    | some g => some g
    | none => searchParenYear rest

/-- Python `re.sub(r"[()]", "", s)`. -/
def removeParens (s : String) : String :=
  ⟨s.data.filter (fun c => ¬ (c = '(' ∨ c = ')'))⟩

/-- Python `str.strip()`: drop leading and trailing whitespace.  (Defined on
the character list so that it evaluates by kernel reduction, unlike
`String.trim`.) -/
def pyStrip (s : String) : String :=
  ⟨((s.data.dropWhile Char.isWhitespace).reverse.dropWhile Char.isWhitespace).reverse⟩

/-- Python slicing `s[:n]`, counted in characters. -/
def pyTake (s : String) (n : Nat) : String :=
  ⟨s.data.take n⟩

/-- Tokeniser for Python `str.split()` with no argument: maximal
non-whitespace runs, in order. -/
def wordSplitAux (acc : List Char) : List Char → List (List Char)
  | [] => if acc = [] then [] else [acc.reverse]
  | c :: rest =>
    if c.isWhitespace then
      if acc = [] then wordSplitAux [] rest
      else acc.reverse :: wordSplitAux [] rest
    else wordSplitAux (c :: acc) rest

/-- Python `str.split()` with no argument. -/
def pySplitWs (s : String) : List String :=
  (wordSplitAux [] s.data).map (fun l => ⟨l⟩)

/-- Does the group text spell `present` after lowercasing (the Python test
`ye.lower() == "present"`)? -/
def groupIsPresent (g : List Char) : Bool :=
  g.map lowerChar = "present".data

/-- The fixed sentinel year substituted for a `present` range end
(`scrape_coaches.py` line 378 and `patch_klint_kubiak.py` line 187). -/
def PRESENT_SENTINEL : Nat := 2025

/-- Drop characters up to and including the first `)`; `none` when no `)`
remains (the lazy group `\(.*?\)` fails without a closing parenthesis). -/
def dropUntilClose : List Char → Option (List Char)
  | [] => none
  | ')' :: rest => some rest
  | _ :: rest => dropUntilClose rest

/-- Attempt to match `\s*\(.*?\)\s*` anchored at the head of the input,
returning the input remaining after the match. -/
def tryParenAt (cs : List Char) : Option (List Char) :=
  match cs.dropWhile Char.isWhitespace with
  | '(' :: r =>
    match dropUntilClose r with
    | some after => some (after.dropWhile Char.isWhitespace)
    | none => none
  | _ => none

/-- Python `re.sub(r"\s*\(.*?\)\s*", "", s)`: remove every parenthetical
together with its surrounding whitespace, scanning leftmost and
non-overlapping.  Fuel is the input length; every step consumes a character. -/
def removeParenSpans : Nat → List Char → List Char
  | 0, cs => cs
  | _, [] => []
  | fuel + 1, c :: rest =>
    match tryParenAt (c :: rest) with
    | some after => removeParenSpans fuel after
    | none => c :: removeParenSpans fuel rest

/-- Characters kept by `re.sub(r"[^a-z0-9\s-]", "", name)` (after lowercasing). -/
def isIdChar (c : Char) : Bool :=
  ('a' ≤ c ∧ c ≤ 'z') ∨ c.isDigit ∨ c.isWhitespace ∨ c = '-'

/-- Python `re.sub(r"\s+", "-", s)`: collapse each whitespace run to one
hyphen.  The flag records whether the scanner is inside a whitespace run. -/
def collapseWsAux : Bool → List Char → List Char
  | _, [] => []
  | inWs, c :: rest =>
    if c.isWhitespace then
      if inWs then collapseWsAux true rest else '-' :: collapseWsAux true rest
    else c :: collapseWsAux false rest

/-- Convert a coach name to its stable id (`make_id` in `scrape_coaches.py`
lines 77-84, duplicated in `patch_klint_kubiak.py` lines 33-39): trim,
remove parentheticals, lowercase, drop characters outside `[a-z0-9\s-]`,
collapse whitespace runs to hyphens. -/
def make_id (name : String) : String :=
  let s1 := pyStrip name
  let s2 : List Char := removeParenSpans s1.data.length s1.data
  let s3 := s2.map lowerChar
  let s4 := s3.filter isIdChar
  ⟨collapseWsAux false s4⟩

/-- A hyperlink inside a coaching-tree list item, at the level the extractor
consumes it: `text` is `link.get_text(strip=True)` and `title` is the result
of `extract_link_title` (already `none` for non-`/wiki/` or namespaced
targets). -/
structure PLink where
  title : Option String
  text : String
deriving DecidableEq

/-- A list item of a coaching-tree section: its stripped text and its links
in document order. -/
structure LItem where
  text : String
  links : List PLink
deriving DecidableEq

/-- One element of the coaching-tree section stream, as returned by
`section_soup.find_all(["p", "ul", "ol"])`: a paragraph's stripped text, or
the list items of a `ul`/`ol`. -/
inductive SElem where
  | p (text : String)
  | ulist (items : List LItem)
deriving DecidableEq

/-- One row of an infobox table, at the level `parse_career_history`
consumes it: the stripped text of the row's first `th` (when present) and
the stripped texts of its `td` cells. -/
structure IRow where
  header : Option String
  cells : List String
deriving DecidableEq

/-- A tuple emitted by `parse_coaching_tree_section`:
(link text, page title, relationship, 200-character context snippet). -/
structure TreeMember where
  linkText : String
  title : String
  rel : String
  context : String
deriving DecidableEq

namespace Scrape

/-- The skip-word block list of `scrape_coaches.py` lines 63-74, in source
order (a Python set; only membership is ever used). -/
def SKIP_LINK_WORDS : List String :=
  ["coach", "football", "league", "team", "bowl", "season", "stadium",
   "university", "college", "school", "conference", "national", "american",
   "pro bowl", "super bowl", "nfl", "afl", "afc", "nfc", "division",
   "playoff", "draft", "hall of fame", "cougars", "gators", "bears",
   "tigers", "lumberjacks", "miners", "packers", "vikings", "falcons",
   "ravens", "bills", "panthers", "bengals", "browns", "cowboys",
   "broncos", "lions", "texans", "colts", "jaguars", "chiefs", "raiders",
   "chargers", "rams", "dolphins", "patriots", "saints", "giants", "jets",
   "eagles", "steelers", "49ers", "seahawks", "buccaneers", "titans",
   "commanders", "redskins", "oilers"]

/-- Link classifier of `scrape_coaches.py` lines 120-131: reject fewer than
two whitespace-separated tokens, any block-listed substring of the lowercased
text, or any digit; accept otherwise. -/
def is_person_link (link_text : String) : Bool :=
  if (pySplitWs link_text).length < 2 then false
  else
    let lower := lowerStr link_text
    if SKIP_LINK_WORDS.any (fun skip => strContains lower skip) then false
    else if link_text.data.any Char.isDigit then false
    else true

end Scrape

namespace Scrape

/-- Paragraph-level context update of `parse_coaching_tree_section`
(`scrape_coaches.py` lines 294-301), applied to the lowercased stripped
paragraph text. -/
def contextUpdate (current : String) (p_text : String) : String :=
  if strContains p_text "served under" ∨ strContains p_text "has served under"
      ∨ strContains p_text "worked under" then "mentor"
  else if strContains p_text "assistant"
      ∧ (strContains p_text "head coach" ∨ strContains p_text "become") then "protege"
  else if strContains p_text "protégé" ∨ strContains p_text "protege" then "protege"
  else current

/-- Emit the tuple for one list item (`scrape_coaches.py` lines 304-325):
take the first link with a usable title whose text passes the link
classifier; the relationship is the current context unless the item's own
text contains `served under`/`worked under`. -/
def itemResult (isPerson : String → Bool) (current : String) (li : LItem) :
    Option TreeMember :=
  match li.links.find? (fun link =>
      (match link.title with
       | some t => t != ""
       | none => false)
      && isPerson link.text) with
  | none => none
  | some link =>
    let li_lower := lowerStr li.text
    let relationship :=
      if strContains li_lower "served under" ∨ strContains li_lower "worked under" then
        "mentor"
      else current
    some { linkText := link.text
           title := link.title.getD ""
           rel := relationship
           context := pyTake li.text 200 }

/-- The main loop of `parse_coaching_tree_section` (`scrape_coaches.py`
lines 290-327) over the section's element stream, threading the mutable
`current_context` variable. -/
def treeLoop (current : String) : List SElem → List TreeMember
  | [] => []
  | SElem.p t :: rest => treeLoop (contextUpdate current (lowerStr t)) rest
  | SElem.ulist items :: rest =>
    items.filterMap (itemResult is_person_link current) ++ treeLoop current rest

/-- Parse the coaching-tree section of a page (`scrape_coaches.py` lines
265-327).  The heading search and slicing are modelled upstream: the argument
is the element stream of the located section, `[]` when no heading matched. -/
def parse_coaching_tree_section (elems : List SElem) : List TreeMember :=
  treeLoop "protege" elems

/-- A career entry collected from the infobox (`scrape_coaches.py` lines
382-387). -/
structure CareerEntry where
  team : String
  role : String
  year_start : Nat
  year_end : Nat
deriving DecidableEq

/-- Career entries produced from one infobox data cell (`scrape_coaches.py`
lines 366-387): all year-range matches, else the first bare four-digit year
doubled; the team is the text before the first four-digit run, with
parentheses removed and whitespace trimmed, or `Unknown` when empty. -/
def cellEntries (text : String) : List CareerEntry :=
  let matches0 := findRanges text.data
  let year_matches :=
    if matches0.isEmpty then
      match firstFourDigits text.data with
      | some ds => [(ds, ds)]
      | none => []
    else matches0
  let team_text := pyStrip (removeParens (pyStrip ⟨beforeFirstFour text.data⟩))
  year_matches.map fun m =>
    { team := if team_text = "" then "Unknown" else team_text
      role := ""
      year_start := natOfDigits m.1
      year_end := if groupIsPresent m.2 then PRESENT_SENTINEL else natOfDigits m.2 }

/-- Section labels that end the coaching-career block (`scrape_coaches.py`
lines 353-357). -/
def careerExitKeywords : List String :=
  ["record", "playing career", "administrative",
   "executive", "front office", "personal info",
   "bowl record", "achievements", "honors"]

/-- Row loop of `parse_career_history` (`scrape_coaches.py` lines 344-387),
threading the `in_coaching` toggle.  A row whose header enters or exits the
block contributes no cells (the Python `continue`). -/
def careerRows (inCoaching : Bool) : List IRow → List CareerEntry
  | [] => []
  | row :: rest =>
    match row.header with
    | some h =>
      let header_text := lowerStr h
      if strContains header_text "coaching career"
          ∨ strContains header_text "career history" then
        careerRows true rest
      else if inCoaching ∧ careerExitKeywords.any (fun kw => strContains header_text kw) then
        careerRows false rest
      else if inCoaching then
        (row.cells.map cellEntries).flatten ++ careerRows inCoaching rest
      else
        careerRows inCoaching rest
    | none =>
      if inCoaching then
        (row.cells.map cellEntries).flatten ++ careerRows inCoaching rest
      else
        careerRows inCoaching rest

/-- Parse the coaching career history from the infobox (`scrape_coaches.py`
lines 330-389).  The argument is the infobox's row list; a page with no
infobox is modelled by `none`. -/
def parse_career_history (infobox : Option (List IRow)) : List CareerEntry :=
  match infobox with
  | none => []
  | some rows => careerRows false rows

/-- Extract a year range or single parenthesised year from a context snippet
(`scrape_coaches.py` lines 392-402). -/
def extract_years_from_context (context_text : String) : Option String :=
  match searchRange context_text.data with
  | some (g1, g2) => some ⟨g1 ++ '-' :: g2⟩
  | none =>
    match searchParenYear context_text.data with
    | some g => some ⟨g⟩
    | none => none

end Scrape

namespace PatchKK

/-- The skip-word block list of `patch_klint_kubiak.py` lines 25-30 (note:
shorter than the crawl script's list — it stops at `hall of fame`). -/
def SKIP_LINK_WORDS : List String :=
  ["coach", "football", "league", "team", "bowl", "season", "stadium",
   "university", "college", "school", "conference", "national", "american",
   "pro bowl", "super bowl", "nfl", "afl", "afc", "nfc", "division",
   "playoff", "draft", "hall of fame"]

/-- Link classifier of `patch_klint_kubiak.py` lines 69-78. -/
def is_person_link (link_text : String) : Bool :=
  if (pySplitWs link_text).length < 2 then false
  else
    let lower := lowerStr link_text
    if SKIP_LINK_WORDS.any (fun skip => strContains lower skip) then false
    else if link_text.data.any Char.isDigit then false
    else true

/-- Paragraph-level context update of `patch_klint_kubiak.py` lines 121-129
(without the redundant `has served under` disjunct of the crawl script). -/
def contextUpdate (current : String) (p_text : String) : String :=
  if strContains p_text "served under" ∨ strContains p_text "worked under" then "mentor"
  else if strContains p_text "assistant"
      ∧ (strContains p_text "head coach" ∨ strContains p_text "become") then "protege"
  else if strContains p_text "protégé" ∨ strContains p_text "protege" then "protege"
  else current

/-- List-item emission of `patch_klint_kubiak.py` lines 131-147. -/
def itemResult (current : String) (li : LItem) : Option TreeMember :=
  match li.links.find? (fun link =>
      (match link.title with
       | some t => t != ""
       | none => false)
      && is_person_link link.text) with
  | none => none
  | some link =>
    let li_lower := lowerStr li.text
    let relationship :=
      if strContains li_lower "served under" ∨ strContains li_lower "worked under" then
        "mentor"
      else current
    some { linkText := link.text
           title := link.title.getD ""
           rel := relationship
           context := pyTake li.text 200 }

/-- Main loop of `parse_coaching_tree_section` in `patch_klint_kubiak.py`
lines 119-148. -/
def treeLoop (current : String) : List SElem → List TreeMember
  | [] => []
  | SElem.p t :: rest => treeLoop (contextUpdate current (lowerStr t)) rest
  | SElem.ulist items :: rest =>
    items.filterMap (itemResult current) ++ treeLoop current rest

/-- Parse the coaching-tree section (`patch_klint_kubiak.py` lines 108-148);
the argument is the located section's element stream, `[]` when absent. -/
def parse_coaching_tree_section (elems : List SElem) : List TreeMember :=
  treeLoop "protege" elems

/-- A career entry of `patch_klint_kubiak.py` lines 190-194 (no `role`
field, unlike the crawl script's entries). -/
structure CareerEntry where
  team : String
  year_start : Nat
  year_end : Nat
deriving DecidableEq

/-- Career entries from one infobox data cell (`patch_klint_kubiak.py`
lines 178-194). -/
def cellEntries (text : String) : List CareerEntry :=
  let matches0 := findRanges text.data
  let year_matches :=
    if matches0.isEmpty then
      match firstFourDigits text.data with
      | some ds => [(ds, ds)]
      | none => []
    else matches0
  let team_text := pyStrip (removeParens (pyStrip ⟨beforeFirstFour text.data⟩))
  year_matches.map fun m =>
    { team := if team_text = "" then "Unknown" else team_text
      year_start := natOfDigits m.1
      year_end := if groupIsPresent m.2 then PRESENT_SENTINEL else natOfDigits m.2 }

/-- Section labels that end the coaching-career block in
`patch_klint_kubiak.py` lines 168-171 (note: three fewer than the crawl
script's list). -/
def careerExitKeywords : List String :=
  ["record", "playing career", "administrative",
   "executive", "front office", "personal info"]

/-- Row loop of `parse_infobox_career` (`patch_klint_kubiak.py` lines
159-194). -/
def careerRows (inCoaching : Bool) : List IRow → List CareerEntry
  | [] => []
  | row :: rest =>
    match row.header with
    | some h =>
      let ht := lowerStr h
      if strContains ht "coaching career" ∨ strContains ht "career history" then
        careerRows true rest
      else if inCoaching ∧ careerExitKeywords.any (fun kw => strContains ht kw) then
        careerRows false rest
      else if inCoaching then
        (row.cells.map cellEntries).flatten ++ careerRows inCoaching rest
      else
        careerRows inCoaching rest
    | none =>
      if inCoaching then
        (row.cells.map cellEntries).flatten ++ careerRows inCoaching rest
      else
        careerRows inCoaching rest

/-- Parse the infobox career block (`patch_klint_kubiak.py` lines 151-195);
`none` models a page without an infobox table. -/
def parse_infobox_career (infobox : Option (List IRow)) : List CareerEntry :=
  match infobox with
  | none => []
  | some rows => careerRows false rows

/-- Extract a year range or single parenthesised year from a context snippet
(`patch_klint_kubiak.py` lines 98-105). -/
def extract_years_from_context (context_text : String) : Option String :=
  match searchRange context_text.data with
  | some (g1, g2) => some ⟨g1 ++ '-' :: g2⟩
  | none =>
    match searchParenYear context_text.data with
    | some g => some ⟨g⟩
    | none => none

end PatchKK

/-- A coach record of the persisted dataset. -/
structure Coach where
  id : String
  name : String
  current_team : Option String
  is_current_hc : Bool
deriving DecidableEq

/-- A connection record of the persisted dataset. -/
structure Conn where
  source : String
  target : String
  type : String
  years : Option String
  context : Option String
deriving DecidableEq

/-- The persisted dataset (the `team_colors` key is static configuration and
out of scope). -/
structure Dataset where
  coaches : List Coach
  connections : List Conn
deriving DecidableEq

/-- A fetched page, at the level the extractors consume it: the infobox's
rows (`none` when the page has no infobox table) and the element stream of
its coaching-tree section (`[]` when no such heading matched). -/
structure PageData where
  infobox : Option (List IRow)
  sectionElems : List SElem

namespace PatchKK

/-- The patched coach's id (`patch_klint_kubiak.py` line 206). -/
def klint_id : String := "klint-kubiak"

/-- Step of the scraped-connection loop (`patch_klint_kubiak.py` lines
240-266), threading `(new_connections, existing_conns, coaches, existing_ids)`. -/
def scrapedStep
    (st : List Conn × List (String × String) × List Coach × List String)
    (m : TreeMember) :
    List Conn × List (String × String) × List Coach × List String :=
  let (newConns, cset, coaches, ids) := st
  let linked_id := make_id m.linkText
  let (src, tgt) := if m.rel = "mentor" then (linked_id, klint_id) else (klint_id, linked_id)
  let years := extract_years_from_context m.context
  let (newConns1, cset1) :=
    if (src, tgt) ∈ cset ∨ (tgt, src) ∈ cset then (newConns, cset)
    else
      (newConns ++ [{ source := src, target := tgt, type := "coaching_tree",
                      years := years,
                      context := if m.context = "" then none else some (pyTake m.context 300) }],
       (src, tgt) :: cset)
  let (coaches1, ids1) :=
    if linked_id ∈ ids then (coaches, ids)
    else
      (coaches ++ [{ id := linked_id, name := m.linkText,
                     current_team := none, is_current_hc := false }],
       linked_id :: ids)
  (newConns1, cset1, coaches1, ids1)

/-- The manual connection list of `patch_klint_kubiak.py` lines 277-280:
`(source, target, type, years, context)`. -/
def manualConnections : List (String × String × String × Option String × String) :=
  [("gary-kubiak", klint_id, "coaching_tree", none,
    "Son and coaching protege of Gary Kubiak")]

/-- Step of the manual-connection loop (`patch_klint_kubiak.py` lines
281-292): only the duplicate check guards insertion — endpoint existence is
not verified here. -/
def manualStep (st : List Conn × List (String × String))
    (mc : String × String × String × Option String × String) :
    List Conn × List (String × String) :=
  let (newConns, cset) := st
  let (src, tgt, ctype, years, ctx) := mc
  if (src, tgt) ∈ cset ∨ (tgt, src) ∈ cset then (newConns, cset)
  else
    (newConns ++ [{ source := src, target := tgt, type := ctype,
                    years := years, context := some ctx }],
     (src, tgt) :: cset)

/-- The dataset transformation of `main` in `patch_klint_kubiak.py` lines
198-302, with the page fetch abstracted as `fetched` (`none` models a failed
fetch or a page without the expected field).  The `existing_ids` and
`existing_conns` snapshots are taken — as in the source — from the dataset
as loaded, before the stale klint entries are removed.  The infobox career
parse of lines 268-273 is computed only for console output and is therefore
omitted; writing the file back is out of scope.  The body is split into
named pieces.  First, the coach list after the stale-entry removal of line
209 and the re-insertion of lines 216-221. -/
def coachesAfterReinsert (data : Dataset) : List Coach :=
  data.coaches.filter (fun c => c.id ≠ klint_id)
    ++ [{ id := klint_id, name := "Klint Kubiak",
          current_team := some "Las Vegas Raiders", is_current_hc := true }]

/-- The connections kept by the stale-entry removal (lines 210-213). -/
def connsAfterRemoval (data : Dataset) : List Conn :=
  data.connections.filter (fun c => c.source ≠ klint_id ∧ c.target ≠ klint_id)

/-- The state after the scraped-connection loop (lines 231-266): starting
from no new connections, the pre-removal `existing_conns`/`existing_ids`
snapshots and the re-inserted coach list, fold the parsed tree members; a
failed fetch (`none`) leaves the state unchanged. -/
def scrapedState (fetched : Option PageData) (data : Dataset) :
    List Conn × List (String × String) × List Coach × List String :=
  match fetched with
  | none => (([] : List Conn), data.connections.map (fun c => (c.source, c.target)),
             coachesAfterReinsert data, data.coaches.map (fun c => c.id))
  | some page =>
    (parse_coaching_tree_section page.sectionElems).foldl scrapedStep
      ([], data.connections.map (fun c => (c.source, c.target)),
       coachesAfterReinsert data, data.coaches.map (fun c => c.id))

/-- The new-connection list and duplicate-check set after the manual loop
of lines 275-292. -/
def manualState (fetched : Option PageData) (data : Dataset) :
    List Conn × List (String × String) :=
  manualConnections.foldl manualStep
    ((scrapedState fetched data).1, (scrapedState fetched data).2.1)

def main (fetched : Option PageData) (data : Dataset) : Dataset :=
  { coaches := (scrapedState fetched data).2.2.1
    connections := connsAfterRemoval data ++ (manualState fetched data).1 }

end PatchKK

namespace PatchMC

/-- The literal new-coach list of `patch_missing_connections.py` lines 19-44. -/
def NEW_COACHES : List Coach :=
  [{ id := "greg-schiano", name := "Greg Schiano", current_team := none, is_current_hc := false },
   { id := "marty-schottenheimer", name := "Marty Schottenheimer", current_team := none, is_current_hc := false },
   { id := "mike-ditka", name := "Mike Ditka", current_team := none, is_current_hc := false },
   { id := "bill-callahan", name := "Bill Callahan", current_team := none, is_current_hc := false }]

/-- The literal new-connection list of `patch_missing_connections.py` lines
47-73: `(source, target, context)`. -/
def NEW_CONNECTIONS : List (String × String × String) :=
  [("joe-philbin", "ben-johnson", "Worked under Joe Philbin with the Dolphins"),
   ("matt-patricia", "ben-johnson", "Worked under Matt Patricia with the Lions"),
   ("dan-campbell", "ben-johnson", "Worked under Dan Campbell with the Lions"),
   ("adam-gase", "ben-johnson", "Worked under Adam Gase with the Dolphins"),
   ("matt-lafleur", "jeff-hafley", "Worked together in the NFL"),
   ("greg-schiano", "jeff-hafley", "Worked under Greg Schiano"),
   ("mike-ditka", "jim-harbaugh", "Jim Harbaugh played for Mike Ditka with the Chicago Bears (1987–1993)"),
   ("ted-marchibroda", "jim-harbaugh", "Jim Harbaugh played for Ted Marchibroda with the Indianapolis Colts (1994–1997)"),
   ("brian-billick", "jim-harbaugh", "Jim Harbaugh played for Brian Billick with the Baltimore Ravens (1998)"),
   ("george-seifert", "jim-harbaugh", "Jim Harbaugh played for George Seifert with the Carolina Panthers (2001)"),
   ("bill-callahan", "jim-harbaugh", "Jim Harbaugh coached under Bill Callahan with the Oakland Raiders (2002–2003)"),
   ("mike-zimmer", "kevin-stefanski", "Worked under Mike Zimmer with the Vikings"),
   ("gary-kubiak", "kevin-stefanski", "Worked under Gary Kubiak with the Vikings"),
   ("kyle-shanahan", "matt-lafleur", "Worked under Kyle Shanahan"),
   ("sean-mcvay", "matt-lafleur", "Worked alongside Sean McVay with the Rams"),
   ("kyle-shanahan", "mike-lafleur", "Worked under Kyle Shanahan with the 49ers"),
   ("bill-walsh", "mike-mccarthy", "Worked under Bill Walsh"),
   ("marty-schottenheimer", "mike-mccarthy", "Worked under Marty Schottenheimer with the Chiefs")]

/-- Step of the coach-insertion loop (`patch_missing_connections.py` lines
88-95). -/
def coachStep (st : List Coach × List String) (coach : Coach) :
    List Coach × List String :=
  let (coaches, ids) := st
  if coach.id ∈ ids then (coaches, ids)
  else (coaches ++ [coach], coach.id :: ids)

/-- Step of the connection-insertion loop (`patch_missing_connections.py`
lines 98-122): skip when either direction is already present, or when either
endpoint is not a known coach id (the logged warning). -/
def connStep (ids : List String) (st : List Conn × List (String × String))
    (nc : String × String × String) : List Conn × List (String × String) :=
  let (conns, cset) := st
  let (source, target, context) := nc
  if (source, target) ∈ cset ∨ (target, source) ∈ cset then (conns, cset)
  else if ¬ (source ∈ ids) then (conns, cset)
  else if ¬ (target ∈ ids) then (conns, cset)
  else
    (conns ++ [{ source := source, target := target, type := "coaching_tree",
                 years := none, context := some context }],
     (source, target) :: cset)

/-- The dataset transformation of `main` in `patch_missing_connections.py`
lines 76-126 (the closing depth-analysis pass of lines 139-183 is
diagnostic console output only and does not alter the dataset), split into
named pieces: the coach list and registered ids after step 2, then the
connection list after step 3. -/
def coachState (data : Dataset) : List Coach × List String :=
  NEW_COACHES.foldl coachStep (data.coaches, data.coaches.map (fun c => c.id))

def connState (data : Dataset) : List Conn × List (String × String) :=
  NEW_CONNECTIONS.foldl (connStep (coachState data).2)
    (data.connections, data.connections.map (fun c => (c.source, c.target)))

def main (data : Dataset) : Dataset :=
  { coaches := (coachState data).1, connections := (connState data).1 }

end PatchMC

/-- Update-or-append on an association list keyed by strings, modelling
Python dict assignment (insertion order preserved, later writes replace in
place). -/
def updateAssoc {α : Type} (m : List (String × α)) (k : String) (v : α) :
    List (String × α) :=
  if m.any (fun p => p.1 = k) then
    m.map (fun p => if p.1 = k then (k, v) else p)
  else m ++ [(k, v)]

/-- Lookup on a string-keyed association list (Python `dict.get`). -/
def lookupAssoc {α : Type} (m : List (String × α)) (k : String) : Option α :=
  (m.find? (fun p => p.1 = k)).map (fun p => p.2)

namespace Scrape

/-- A seed coach as produced by `get_current_head_coaches` (name, page
title, optional team). -/
structure SeedCoach where
  name : String
  page_title : String
  team : Option String

/-- A queue entry of the crawl (`scrape_coaches.py` line 415):
`(name, page_title, team, is_current_hc)`. -/
structure QEntry where
  name : String
  page : String
  team : Option String
  isCurrent : Bool

/-- The mutable state of the crawl loop in `scrape_coaching_trees`
(`scrape_coaches.py` lines 410-432): the coach map (insertion-ordered,
keyed by id), the connection list and its direction-insensitive key set,
the visited page-title set, the per-coach career data, the FIFO queue, the
page-to-depth map, and the processed-page counter. -/
structure CrawlState where
  coaches : List Coach
  connections : List Conn
  connSet : List (String × String)
  visited : List String
  careerData : List (String × List CareerEntry)
  queue : List QEntry
  depthMap : List (String × Nat)
  totalScraped : Nat

/-- Initial crawl state (`scrape_coaches.py` lines 417-432): seed coaches
registered as current head coaches (dict assignment), queued at depth 0. -/
def initState (seeds : List SeedCoach) : CrawlState :=
  { coaches := seeds.foldl
      (fun acc sc =>
        let cid := make_id sc.name
        let c : Coach := { id := cid, name := sc.name,
                           current_team := sc.team, is_current_hc := true }
        if acc.any (fun x => x.id = cid) then
          acc.map (fun x => if x.id = cid then c else x)
        else acc ++ [c])
      []
    connections := []
    connSet := []
    visited := []
    careerData := []
    queue := seeds.map (fun sc => { name := sc.name, page := sc.page_title,
                                    team := sc.team, isCurrent := true })
    depthMap := seeds.foldl (fun m sc => updateAssoc m sc.page_title 0) []
    totalScraped := 0 }

/-- Per-tree-member processing (`scrape_coaches.py` lines 475-512): build
the mentor-to-protege edge, insert it unless either direction is present,
register the linked coach if new, and enqueue the linked page at depth + 1
when unvisited and within the depth ceiling.  The threaded tuple is
`(connections, connSet, coaches, queue, depthMap)`. -/
def memberStep (coach_id : String) (current_depth max_depth : Nat)
    (visited : List String)
    (st : List Conn × List (String × String) × List Coach × List QEntry × List (String × Nat))
    (m : TreeMember) :
    List Conn × List (String × String) × List Coach × List QEntry × List (String × Nat) :=
  let (conns, cset, coaches, queue, depthMap) := st
  let linked_id := make_id m.linkText
  let (source_id, target_id) :=
    if m.rel = "mentor" then (linked_id, coach_id) else (coach_id, linked_id)
  let years := extract_years_from_context m.context
  let (conns1, cset1) :=
    if (source_id, target_id) ∈ cset ∨ (target_id, source_id) ∈ cset then (conns, cset)
    else
      (conns ++ [{ source := source_id, target := target_id,
                   type := "coaching_tree", years := years,
                   context := if m.context = "" then none else some (pyTake m.context 300) }],
       (source_id, target_id) :: cset)
  let coaches1 :=
    if coaches.any (fun x => x.id = linked_id) then coaches
    else coaches ++ [{ id := linked_id, name := m.linkText,
                       current_team := none, is_current_hc := false }]
  let (queue1, depthMap1) :=
    if ¬ (m.title ∈ visited) ∧ current_depth + 1 ≤ max_depth then
      (queue ++ [{ name := m.linkText, page := m.title, team := none, isCurrent := false }],
       updateAssoc depthMap m.title (current_depth + 1))
    else (queue, depthMap)
  (conns1, cset1, coaches1, queue1, depthMap1)

/-- Processing of one successfully fetched page (`scrape_coaches.py` lines
444-512, everything after the `total_scraped` increment): register the
dequeued coach if new, record its parsed career history, and fold the
coaching-tree members. -/
def processPage (max_depth : Nat) (e : QEntry) (page : PageData)
    (s : CrawlState) : CrawlState :=
  let current_depth := (lookupAssoc s.depthMap e.page).getD 0
  let coach_id := make_id e.name
  let coaches0 :=
    if s.coaches.any (fun x => x.id = coach_id) then s.coaches
    else s.coaches ++ [{ id := coach_id, name := e.name,
                         current_team := e.team, is_current_hc := e.isCurrent }]
  let career := parse_career_history page.infobox
  let careerData1 :=
    if career ≠ [] then updateAssoc s.careerData coach_id career else s.careerData
  let tree_members := parse_coaching_tree_section page.sectionElems
  let folded :=
    tree_members.foldl (memberStep coach_id current_depth max_depth s.visited)
      (s.connections, s.connSet, coaches0, s.queue, s.depthMap)
  let (conns, cset, coaches, queue, depthMap) := folded
  { s with coaches := coaches, connections := conns, connSet := cset,
           queue := queue, depthMap := depthMap, careerData := careerData1 }

/-- The crawl loop (`scrape_coaches.py` lines 437-519):
`while queue and total_scraped < max_pages`, dequeue, skip visited pages,
mark visited, fetch (a failed fetch is skipped and does not count toward
the budget), and process.  The fuel argument bounds the number of
iterations of the while loop; the loop body is the exact source body. -/
def crawlLoop (fetch : String → Option PageData) (max_pages max_depth : Nat) :
    Nat → CrawlState → CrawlState
  | 0, s => s
  | fuel + 1, s =>
    match s.queue with
    | [] => s
    | e :: rest =>
      if s.totalScraped < max_pages then
        if e.page ∈ s.visited then
          crawlLoop fetch max_pages max_depth fuel { s with queue := rest }
        else
          let s1 := { s with queue := rest, visited := s.visited ++ [e.page] }
          match fetch e.page with
          | none => crawlLoop fetch max_pages max_depth fuel s1
          | some page =>
            crawlLoop fetch max_pages max_depth fuel
              (processPage max_depth e page
                { s1 with totalScraped := s1.totalScraped + 1 })
      else s

/-- One candidate overlap edge (`scrape_coaches.py` lines 528-548): same
non-empty, non-`Unknown` team, truthy (non-zero) years, intersecting
ranges, and neither direction already present. -/
def overlapAdd (cid_a cid_b : String) (ca cb : CareerEntry)
    (st : List Conn × List (String × String)) :
    List Conn × List (String × String) :=
  let (conns, cset) := st
  if ca.team ≠ "" ∧ cb.team ≠ "" ∧ ca.team = cb.team ∧ ca.team ≠ "Unknown"
      ∧ ca.year_start ≠ 0 ∧ cb.year_start ≠ 0
      ∧ ca.year_end ≠ 0 ∧ cb.year_end ≠ 0 then
    let overlap_start := max ca.year_start cb.year_start
    let overlap_end := min ca.year_end cb.year_end
    if overlap_start ≤ overlap_end then
      if (cid_a, cid_b) ∈ cset ∨ (cid_b, cid_a) ∈ cset then (conns, cset)
      else
        (conns ++ [{ source := cid_a, target := cid_b, type := "career_overlap",
                     years := some (toString overlap_start ++ "-" ++ toString overlap_end),
                     context := some ("Both at " ++ ca.team ++ " (" ++ toString overlap_start
                                      ++ "-" ++ toString overlap_end ++ ")") }],
         (cid_a, cid_b) :: cset)
    else (conns, cset)
  else (conns, cset)

/-- All entry pairs of one coach pair (`scrape_coaches.py` lines 526-548). -/
def overlapPair (cid_a : String) (ents_a : List CareerEntry)
    (cid_b : String) (ents_b : List CareerEntry)
    (st : List Conn × List (String × String)) :
    List Conn × List (String × String) :=
  ents_a.foldl (fun st ca => ents_b.foldl (fun st cb => overlapAdd cid_a cid_b ca cb st) st) st

/-- The pairwise career cross-reference (`scrape_coaches.py` lines 523-548):
every unordered pair of coaches with recorded careers, in list order. -/
def overlapLoop : List (String × List CareerEntry) →
    List Conn × List (String × String) → List Conn × List (String × String)
  | [], st => st
  | (cid_a, ents_a) :: rest, st =>
    overlapLoop rest
      (rest.foldl (fun st p => overlapPair cid_a ents_a p.1 p.2 st) st)

/-- The crawl's depth ceiling (`scrape_coaches.py` line 428). -/
def max_depth : Nat := 5

/-- The crawl's page budget (`scrape_coaches.py` line 432). -/
def max_pages : Nat := 300

/-- The whole of `scrape_coaching_trees` (`scrape_coaches.py` lines
405-571): seed, crawl, cross-reference careers, filter connections to
registered coaches, and keep connected or currently-head-coaching coaches.
The fetch function and the seed list abstract the network; fuel bounds the
while loop (the real loop runs to exhaustion). -/
def scrape_coaching_trees (fetch : String → Option PageData)
    (seeds : List SeedCoach) (fuel : Nat) : Dataset :=
  let s := crawlLoop fetch max_pages max_depth fuel (initState seeds)
  let (conns2, _cset2) := overlapLoop s.careerData (s.connections, s.connSet)
  let valid_ids := s.coaches.map (fun c => c.id)
  let connections := conns2.filter (fun c => c.source ∈ valid_ids ∧ c.target ∈ valid_ids)
  let connected_ids := connections.map (fun c => c.source) ++ connections.map (fun c => c.target)
  let final_coaches := s.coaches.filter (fun c => c.id ∈ connected_ids ∨ c.is_current_hc)
  { coaches := final_coaches, connections := connections }

end Scrape

/-- Possible outcomes of one MediaWiki API request, as distinguished by the
scripts' fetch boundaries: a 200 response whose JSON carries
`parse.text.*`, a 200 response without that field, and the four failure
modes named by the spec (timeout, transport error, non-200 status,
malformed JSON body). -/
inductive FetchOutcome where
  | parsed (page : PageData)
  | missingField
  | timeout
  | transportError
  | httpError
  | malformedJson

namespace Scrape

/-- The fetch boundary of `scrape_coaches.py` lines 87-104: every raised
exception (timeout, transport error, `raise_for_status` on non-200,
`resp.json()` on a malformed body) is caught by the `try`/`except` and
converted to `None`; a well-formed response without the expected field also
yields `None`. -/
def fetch_page_html : FetchOutcome → Option PageData
  | FetchOutcome.parsed page => some page
  | FetchOutcome.missingField => none
  | FetchOutcome.timeout => none
  | FetchOutcome.transportError => none
  | FetchOutcome.httpError => none
  | FetchOutcome.malformedJson => none

end Scrape

namespace PatchKK

/-- The fetch boundary of `patch_klint_kubiak.py` lines 42-55: there is no
`try`/`except`, so a timeout, transport error, `raise_for_status` on a
non-200 response, or `resp.json()` on a malformed body raises out of the
function (`Except.error`); only the missing-field case returns `None`. -/
def fetch_page_html : FetchOutcome → Except String (Option PageData)
  | FetchOutcome.parsed page => Except.ok (some page)
  | FetchOutcome.missingField => Except.ok none
  | FetchOutcome.timeout => Except.error "requests.exceptions.Timeout"
  | FetchOutcome.transportError => Except.error "requests.exceptions.ConnectionError"
  | FetchOutcome.httpError => Except.error "requests.exceptions.HTTPError"
  | FetchOutcome.malformedJson => Except.error "requests.exceptions.JSONDecodeError"

/-- A whole run of `patch_klint_kubiak.py`: the fetch happens inside `main`
(line 226), so an exception raised at the fetch boundary propagates and
aborts the run before anything is merged or written. -/
def run (outcome : FetchOutcome) (data : Dataset) : Except String Dataset :=
  match fetch_page_html outcome with
  | Except.error e => Except.error e
  | Except.ok fetched => Except.ok (main fetched data)

end PatchKK

/-! ### Spec-side definitions used to state the claims -/

/-- Remove the first occurrence of `needle` from `hay` (used to state claim
C7's reading of the team-name derivation: the cell text with the matched
year text removed). -/
def removeFirstOcc (needle : List Char) : List Char → List Char
  | [] => []
  | c :: rest =>
    if needle.isPrefixOf (c :: rest) then (c :: rest).drop needle.length
    else c :: removeFirstOcc needle rest

/-- The team-name computation actually performed per cell by both career
extractors: text before the first four-digit run, stripped, with
parentheses removed, stripped again. -/
def cellTeamText (text : String) : String :=
  pyStrip (removeParens (pyStrip ⟨beforeFirstFour text.data⟩))

namespace SpecClassifier

/-- The paragraph rule exactly as claim C4 words it: `served under` /
`worked under` set the state to `mentor`; the assistant rule and the
protege rule reset it to `protege`; other paragraphs leave it unchanged. -/
def update (state : String) (p_lower : String) : String :=
  if strContains p_lower "served under" ∨ strContains p_lower "worked under" then
    "mentor"
  else if strContains p_lower "assistant"
      ∧ (strContains p_lower "head coach" ∨ strContains p_lower "become") then
    "protege"
  else if strContains p_lower "protégé" ∨ strContains p_lower "protege" then
    "protege"
  else state

/-- The item rule exactly as claim C4 words it: a list item whose own text
contains `served under` or `worked under` is `mentor` regardless of the
running state, otherwise it inherits the running state. -/
def itemRole (state : String) (li_text : String) : String :=
  if strContains (lowerStr li_text) "served under"
      ∨ strContains (lowerStr li_text) "worked under" then "mentor"
  else state

/-- Claim C4's description of the whole section scan: thread the running
state through the paragraphs, and give every emitted list item the role
`itemRole` of the state current at its list. -/
def emit (state : String) : List SElem → List TreeMember
  | [] => []
  | SElem.p t :: rest => emit (update state (lowerStr t)) rest
  | SElem.ulist items :: rest =>
    items.filterMap (fun li =>
      match li.links.find? (fun link =>
          (match link.title with
           | some t => t != ""
           | none => false)
          && Scrape.is_person_link link.text) with
      | none => none
      | some link =>
        some { linkText := link.text
               title := link.title.getD ""
               rel := itemRole state li.text
               context := pyTake li.text 200 }) ++ emit state rest

end SpecClassifier

/-- Claim C3's invariant: the unordered pair `{source, target}` of every
connection appears at most once in the list. -/
def unorderedPairUnique (conns : List Conn) : Prop :=
  List.Pairwise
    (fun a b => ¬ ((a.source = b.source ∧ a.target = b.target)
                   ∨ (a.source = b.target ∧ a.target = b.source)))
    conns

instance : DecidablePred unorderedPairUnique := fun conns =>
  inferInstanceAs (Decidable (List.Pairwise _ conns))

/-- The invariant threaded through every guarded edge insertion: pairwise
uniqueness, plus every present connection's directed pair being registered
in the duplicate-check set. -/
def ConnInv (conns : List Conn) (cset : List (String × String)) : Prop :=
  unorderedPairUnique conns ∧ ∀ c ∈ conns, (c.source, c.target) ∈ cset

/-- Claim C2's invariant: every connection's endpoints exist among the coach
records. -/
def refIntegrity (d : Dataset) : Prop :=
  ∀ c ∈ d.connections, c.source ∈ d.coaches.map (fun x => x.id)
    ∧ c.target ∈ d.coaches.map (fun x => x.id)

/-- The skip words present in the crawl script's block list but absent from
the patch script's (`scrape_coaches.py` lines 67-73 vs
`patch_klint_kubiak.py` lines 25-30). -/
def extraSkipWords : List String :=
  ["cougars", "gators", "bears",
   "tigers", "lumberjacks", "miners", "packers", "vikings", "falcons",
   "ravens", "bills", "panthers", "bengals", "browns", "cowboys",
   "broncos", "lions", "texans", "colts", "jaguars", "chiefs", "raiders",
   "chargers", "rams", "dolphins", "patriots", "saints", "giants", "jets",
   "eagles", "steelers", "49ers", "seahawks", "buccaneers", "titans",
   "commanders", "redskins", "oilers"]

/-- A link text mentioning none of the crawl-only skip words. -/
@[reducible]
def NoExtraSkipWords (s : String) : Prop :=
  ∀ w ∈ extraSkipWords, strContains (lowerStr s) w = false

/-- A section element whose link texts mention none of the crawl-only skip
words. -/
@[reducible]
def ElemNoExtraSkipWords : SElem → Prop
  | SElem.p _ => True
  | SElem.ulist items => ∀ li ∈ items, ∀ link ∈ li.links, NoExtraSkipWords link.text

instance : DecidablePred ElemNoExtraSkipWords := fun e =>
  match e with
  | SElem.p _ => Decidable.isTrue trivial
  | SElem.ulist items =>
    inferInstanceAs (Decidable (∀ li ∈ items, ∀ link ∈ li.links, NoExtraSkipWords link.text))

/-- The block-exit keywords present in the crawl script's career extractor
but absent from the patch script's (`bowl record` is subsumed by `record`;
`achievements` and `honors` are not). -/
def extraCareerKeywords : List String :=
  ["bowl record", "achievements", "honors"]

/-- An infobox whose headers mention neither `achievements` nor `honors`. -/
@[reducible]
def RowsNoExtraKeywords (rows : List IRow) : Prop :=
  ∀ row ∈ rows, ∀ h, row.header = some h →
    strContains (lowerStr h) "achievements" = false
    ∧ strContains (lowerStr h) "honors" = false

/-- Projection of a crawl-script career entry to the fields the patch script
also records. -/
def careerTriple (e : Scrape.CareerEntry) : String × Nat × Nat :=
  (e.team, e.year_start, e.year_end)

/-- Projection of a patch-script career entry to the shared fields. -/
def careerTripleKK (e : PatchKK.CareerEntry) : String × Nat × Nat :=
  (e.team, e.year_start, e.year_end)

/-! ### General lemmas about the string primitives -/

/-- An ASCII digit is not whitespace. -/
theorem ws_false_of_isDigit {c : Char} (h : c.isDigit = true) :
    c.isWhitespace = false := by
  cases hw : c.isWhitespace with
  | false => rfl
  | true =>
    exfalso
    have hww : ((c = ' ' ∨ c = '\t') ∨ c = '\r') ∨ c = '\n' := by
      simpa [Char.isWhitespace] using hw
    rcases hww with ((rfl | rfl) | rfl) | rfl <;> exact absurd h (by decide)

/-- The substring tester agrees with the infix relation. -/
theorem listInfixOf_iff {n l : List Char} : listInfixOf n l = true ↔ n <:+: l := by
  induction l with
  | nil =>
    simp only [listInfixOf, List.isPrefixOf_iff_prefix, List.infix_nil]
    constructor
    · intro h
      simpa using List.prefix_nil.mp h
    · intro h
      simp [h]
  | cons c rest ih =>
    simp [listInfixOf, List.isPrefixOf_iff_prefix, List.infix_cons_iff, ih]

/-- Containment of a longer needle implies containment of any infix of it. -/
theorem strContains_mono {s n₁ n₂ : String} (hinf : n₂.data <:+: n₁.data)
    (h : strContains s n₁ = true) : strContains s n₂ = true := by
  unfold strContains at h ⊢
  exact listInfixOf_iff.mpr (hinf.trans (listInfixOf_iff.mp h))

/-- Fold preservation: an invariant preserved by each step is preserved by
the whole `List.foldl`. -/
theorem foldl_preserve {α β : Type} (P : β → Prop) (f : β → α → β)
    (hstep : ∀ b a, P b → P (f b a)) :
    ∀ (l : List α) (b : β), P b → P (l.foldl f b) := by
  intro l
  induction l with
  | nil => intro b hb; exact hb
  | cons x xs ih => intro b hb; exact ih (f b x) (hstep b x hb)

/-- Lowercasing fixes ASCII digits. -/
theorem lowerChar_eq_self_of_isDigit {c : Char} (h : c.isDigit = true) :
    lowerChar c = c := by
  unfold lowerChar
  rw [if_neg]
  rintro ⟨h1, h2⟩
  simp only [Char.isDigit, Bool.and_eq_true, decide_eq_true_eq] at h
  have h1v : ('A' : Char).val ≤ c.val := h1
  have hnat1 : ('A' : Char).val.toNat ≤ c.val.toNat := h1v
  have hnat2 : c.val.toNat ≤ (57 : UInt32).toNat := h.2
  have hcon : (65 : Nat) ≤ 57 := le_trans hnat1 hnat2
  omega

/-- A character whose lowercasing is a non-digit is itself a non-digit. -/
theorem isDigit_false_of_lowerChar_eq {c x : Char} (hx : x.isDigit = false)
    (hl : lowerChar c = x) : c.isDigit = false := by
  cases hd : c.isDigit with
  | false => rfl
  | true =>
    rw [lowerChar_eq_self_of_isDigit hd] at hl
    rw [hl] at hd
    rw [hd] at hx
    exact absurd hx (by simp)

/-- Evaluation of the four-digit-group value. -/
theorem natOfDigits_four (a b c d : Char) :
    natOfDigits [a, b, c, d] = val4 a b c d := by
  simp [natOfDigits, val4]

/-- The range matcher succeeds on four digits, a hyphen or en-dash, and four
more digits. -/
theorem matchRangeAt_digits {a b c d e f g h sep : Char} (rest : List Char)
    (ha : a.isDigit) (hb : b.isDigit) (hc : c.isDigit) (hd : d.isDigit)
    (he : e.isDigit) (hf : f.isDigit) (hg : g.isDigit) (hh : h.isDigit)
    (hsep : sep = '-' ∨ sep = '–') :
    matchRangeAt (a :: b :: c :: d :: sep :: e :: f :: g :: h :: rest) =
      some ([a, b, c, d], [e, f, g, h], rest) := by
  rcases hsep with rfl | rfl <;>
    simp [matchRangeAt, matchTail, ha, hb, hc, hd, he, hf, hg, hh, List.dropWhile,
          ws_false_of_isDigit he]

/-- The range matcher succeeds on four digits, a dash, and any casing of the
word `present`. -/
theorem matchRangeAt_present {a b c d sep p1 p2 p3 p4 p5 p6 p7 : Char}
    (rest : List Char)
    (ha : a.isDigit) (hb : b.isDigit) (hc : c.isDigit) (hd : d.isDigit)
    (hsep : sep = '-' ∨ sep = '–')
    (hp : [p1, p2, p3, p4, p5, p6, p7].map lowerChar = "present".data) :
    matchRangeAt (a :: b :: c :: d :: sep :: p1 :: p2 :: p3 :: p4 :: p5 :: p6 :: p7 :: rest) =
      some ([a, b, c, d], [p1, p2, p3, p4, p5, p6, p7], rest) := by
  have hp' := hp
  simp only [List.map, List.cons.injEq] at hp'
  have hp1 : p1.isDigit = false :=
    isDigit_false_of_lowerChar_eq (by decide) hp'.1
  have hnw : p1.isWhitespace = false := by
    have hl : lowerChar p1 = 'p' := hp'.1
    cases hw : p1.isWhitespace with
    | false => rfl
    | true =>
      exfalso
      have hww : ((p1 = ' ' ∨ p1 = '\t') ∨ p1 = '\r') ∨ p1 = '\n' := by
        simpa [Char.isWhitespace] using hw
      rcases hww with ((rfl | rfl) | rfl) | rfl <;> exact absurd hl (by decide)
  rcases hsep with rfl | rfl <;>
    simp [matchRangeAt, matchTail, ha, hb, hc, hd, hp1, hnw, List.dropWhile,
          matchPresentAt, hp]

/-- Dropping a prefix never lengthens a list. -/
theorem dropWhile_length_le (p : Char → Bool) :
    ∀ l : List Char, (l.dropWhile p).length ≤ l.length := by
  intro l
  induction l with
  | nil => simp
  | cons c rest ih =>
    rw [List.dropWhile_cons]
    split
    · exact le_trans ih (by simp)
    · simp

/-- A successful `present` match consumes exactly seven characters. -/
theorem matchPresentAt_shrinks {cs grp after : List Char}
    (h : matchPresentAt cs = some (grp, after)) : after.length + 7 = cs.length := by
  unfold matchPresentAt at h
  split at h
  · split at h
    · simp only [Option.some.injEq, Prod.mk.injEq] at h
      obtain ⟨h1, h2⟩ := h
      subst h2
      simp
    · exact absurd h (by simp)
  · exact absurd h (by simp)

/-- A successful second-group match consumes at least four characters. -/
theorem matchTail_shrinks {g1 r3 x y after : List Char}
    (h : matchTail g1 r3 = some (x, y, after)) : after.length < r3.length := by
  rcases r3 with _ | ⟨e, _ | ⟨f, _ | ⟨g, _ | ⟨h4, after'⟩⟩⟩⟩
  · exact absurd h (by simp [matchTail, matchPresentAt])
  · exact absurd h (by simp [matchTail, matchPresentAt])
  · exact absurd h (by simp [matchTail, matchPresentAt])
  · exact absurd h (by simp [matchTail, matchPresentAt])
  · simp only [matchTail] at h
    by_cases hdig : e.isDigit = true ∧ f.isDigit = true ∧ g.isDigit = true ∧ h4.isDigit = true
    · rw [if_pos hdig] at h
      simp only [Option.some.injEq, Prod.mk.injEq] at h
      obtain ⟨-, -, h3⟩ := h
      subst h3
      simp only [List.length_cons]
      omega
    · rw [if_neg hdig] at h
      rcases hp : matchPresentAt (e :: f :: g :: h4 :: after')
        with _ | ⟨grp2, after2⟩ <;> rw [hp] at h
      · exact absurd h (by simp)
      · simp only [Option.some.injEq, Prod.mk.injEq] at h
        obtain ⟨-, -, h3⟩ := h
        subst h3
        have h5 := matchPresentAt_shrinks hp
        simp only [List.length_cons] at h5 ⊢
        omega

/-- A successful range match consumes at least one character. -/
theorem matchRangeAt_shrinks {cs g1 g2 after : List Char}
    (h : matchRangeAt cs = some (g1, g2, after)) : after.length < cs.length := by
  unfold matchRangeAt at h
  split at h
  case h_2 => exact absurd h (by simp)
  case h_1 a b c d rest =>
    split at h
    case isFalse => exact absurd h (by simp)
    case isTrue =>
      split at h
      · rename_i dash r2 hdw
        have hr2 : r2.length < rest.length := by
          have hle := dropWhile_length_le Char.isWhitespace rest
          rw [hdw] at hle
          simp at hle
          omega
        by_cases hdash : dash = '-' ∨ dash = '–'
        · rw [if_pos hdash] at h
          have h1 := matchTail_shrinks h
          have h2 := dropWhile_length_le Char.isWhitespace r2
          simp only [List.length_cons]
          omega
        · rw [if_neg hdash] at h
          exact absurd h (by simp)
      · exact absurd h (by simp)

/-- The fuel of the findall scanner is irrelevant once it covers the input
length. -/
theorem findRangesAux_congr :
    ∀ (fuel fuel' : Nat) (cs : List Char), cs.length ≤ fuel → cs.length ≤ fuel' →
      findRangesAux fuel cs = findRangesAux fuel' cs := by
  intro fuel
  induction fuel with
  | zero =>
    intro fuel' cs h h'
    have : cs = [] := List.length_eq_zero.mp (Nat.le_zero.mp h)
    subst this
    cases fuel' <;> rfl
  | succ n ih =>
    intro fuel' cs h h'
    rcases cs with _ | ⟨c, rest⟩
    · cases fuel' <;> rfl
    · rcases fuel' with _ | m
      · simp at h'
      · rcases hm : matchRangeAt (c :: rest) with _ | ⟨g1, g2, after⟩
        · simp only [findRangesAux, hm]
          simp only [List.length_cons] at h h'
          exact ih m rest (by omega) (by omega)
        · have hlen := matchRangeAt_shrinks hm
          simp only [findRangesAux, hm]
          simp only [List.length_cons] at h h' hlen
          rw [ih m after (by omega) (by omega)]

/-- Scanner step: a match at the head contributes its groups and scanning
resumes after the matched span. -/
theorem findRanges_cons_some {c : Char} {rest g1 g2 after : List Char}
    (hm : matchRangeAt (c :: rest) = some (g1, g2, after)) :
    findRanges (c :: rest) = (g1, g2) :: findRanges after := by
  unfold findRanges
  simp only [List.length_cons, findRangesAux, hm]
  have hlen := matchRangeAt_shrinks hm
  simp only [List.length_cons] at hlen
  rw [findRangesAux_congr rest.length after.length after (by omega) (by omega)]

/-- Scanner step: no match at the head, scanning advances one character. -/
theorem findRanges_cons_none {c : Char} {rest : List Char}
    (hm : matchRangeAt (c :: rest) = none) :
    findRanges (c :: rest) = findRanges rest := by
  unfold findRanges
  simp only [List.length_cons, findRangesAux, hm]

/-- A four-character group is never the seven-character word `present`. -/
theorem groupIsPresent_four_false (e f g h : Char) :
    groupIsPresent [e, f, g, h] = false := by
  apply decide_eq_false
  intro heq
  have hlen := congrArg List.length heq
  simp only [List.length_map, List.length_cons, List.length_nil] at hlen
  omega

/-- A cell that is exactly a `YYYY-YYYY` or `YYYY–YYYY` range yields one
entry carrying the two year values (and the `Unknown` team, the text before
the digits being empty). -/
theorem cellEntries_range_shape {a b c d e f g h sep : Char}
    (ha : a.isDigit) (hb : b.isDigit) (hc : c.isDigit) (hd : d.isDigit)
    (he : e.isDigit) (hf : f.isDigit) (hg : g.isDigit) (hh : h.isDigit)
    (hsep : sep = '-' ∨ sep = '–') :
    Scrape.cellEntries ⟨[a, b, c, d, sep, e, f, g, h]⟩ =
      [{ team := "Unknown", role := "", year_start := val4 a b c d,
         year_end := val4 e f g h }] := by
  have hm := matchRangeAt_digits ([] : List Char) ha hb hc hd he hf hg hh hsep
  have hfr : findRanges [a, b, c, d, sep, e, f, g, h] = [([a, b, c, d], [e, f, g, h])] := by
    rw [findRanges_cons_some hm]
    rfl
  unfold Scrape.cellEntries
  simp [hfr, beforeFirstFour, ha, hb, hc, hd, groupIsPresent_four_false,
        natOfDigits_four, show pyStrip (removeParens (pyStrip ("" : String))) = "" from rfl]

/-- A cell that is exactly `YYYY-present` (any casing, hyphen or en-dash)
yields one entry ending at the sentinel year. -/
theorem cellEntries_present_shape {a b c d sep p1 p2 p3 p4 p5 p6 p7 : Char}
    (ha : a.isDigit) (hb : b.isDigit) (hc : c.isDigit) (hd : d.isDigit)
    (hsep : sep = '-' ∨ sep = '–')
    (hp : [p1, p2, p3, p4, p5, p6, p7].map lowerChar = "present".data) :
    Scrape.cellEntries ⟨[a, b, c, d, sep, p1, p2, p3, p4, p5, p6, p7]⟩ =
      [{ team := "Unknown", role := "", year_start := val4 a b c d,
         year_end := PRESENT_SENTINEL }] := by
  have hm := matchRangeAt_present ([] : List Char) ha hb hc hd hsep hp
  have hfr : findRanges [a, b, c, d, sep, p1, p2, p3, p4, p5, p6, p7] =
      [([a, b, c, d], [p1, p2, p3, p4, p5, p6, p7])] := by
    rw [findRanges_cons_some hm]
    rfl
  have hpres : groupIsPresent [p1, p2, p3, p4, p5, p6, p7] = true := by
    apply decide_eq_true
    exact hp
  unfold Scrape.cellEntries
  simp [hfr, beforeFirstFour, ha, hb, hc, hd, hpres, natOfDigits_four,
        show pyStrip (removeParens (pyStrip ("" : String))) = "" from rfl]

/-- A cell that is exactly a bare `YYYY` yields one entry with that year as
both start and end. -/
theorem cellEntries_bare_shape {a b c d : Char}
    (ha : a.isDigit) (hb : b.isDigit) (hc : c.isDigit) (hd : d.isDigit) :
    Scrape.cellEntries ⟨[a, b, c, d]⟩ =
      [{ team := "Unknown", role := "", year_start := val4 a b c d,
         year_end := val4 a b c d }] := by
  have hm1 : matchRangeAt [a, b, c, d] = none := by
    simp [matchRangeAt, ha, hb, hc, hd, List.dropWhile]
  have hfr : findRanges [a, b, c, d] = [] := by
    rw [findRanges_cons_none hm1]
    rfl
  unfold Scrape.cellEntries
  simp [hfr, beforeFirstFour, firstFourDigits, ha, hb, hc, hd,
        groupIsPresent_four_false, natOfDigits_four,
        show pyStrip (removeParens (pyStrip ("" : String))) = "" from rfl]

/-- Claim C6: for every infobox data cell scanned inside the coaching-career
block, a year range `YYYY–YYYY` or `YYYY-present` (en-dash or hyphen,
case-insensitive) yields a career entry whose `year_start` is the first year
and whose `year_end` is the second year, with `present` mapped to the fixed
sentinel end year; a cell with no such range but containing a bare 4-digit
year yields an entry with that year as both start and end.  In particular
`1995–1999` yields `(1995, 1999)`, `2020-present` yields `(2020, 2025)`, and
`2003` yields `(2003, 2003)`; the final conjunct shows one cell being
scanned inside the coaching-career block of an infobox, with a
block-exiting header ending the scan. -/
theorem claim_C6 :
    (∀ a b c d e f g h sep : Char,
        a.isDigit = true → b.isDigit = true → c.isDigit = true → d.isDigit = true →
        e.isDigit = true → f.isDigit = true → g.isDigit = true → h.isDigit = true →
        (sep = '-' ∨ sep = '–') →
        Scrape.cellEntries ⟨[a, b, c, d, sep, e, f, g, h]⟩ =
          [{ team := "Unknown", role := "", year_start := val4 a b c d,
             year_end := val4 e f g h }])
    ∧ (∀ a b c d sep p1 p2 p3 p4 p5 p6 p7 : Char,
        a.isDigit = true → b.isDigit = true → c.isDigit = true → d.isDigit = true →
        (sep = '-' ∨ sep = '–') →
        [p1, p2, p3, p4, p5, p6, p7].map lowerChar = "present".data →
        Scrape.cellEntries ⟨[a, b, c, d, sep, p1, p2, p3, p4, p5, p6, p7]⟩ =
          [{ team := "Unknown", role := "", year_start := val4 a b c d,
             year_end := PRESENT_SENTINEL }])
    ∧ (∀ a b c d : Char,
        a.isDigit = true → b.isDigit = true → c.isDigit = true → d.isDigit = true →
        Scrape.cellEntries ⟨[a, b, c, d]⟩ =
          [{ team := "Unknown", role := "", year_start := val4 a b c d,
             year_end := val4 a b c d }])
    ∧ Scrape.cellEntries "1995–1999" =
        [{ team := "Unknown", role := "", year_start := 1995, year_end := 1999 }]
    ∧ Scrape.cellEntries "2020-present" =
        [{ team := "Unknown", role := "", year_start := 2020, year_end := PRESENT_SENTINEL }]
    ∧ Scrape.cellEntries "2003" =
        [{ team := "Unknown", role := "", year_start := 2003, year_end := 2003 }]
    ∧ Scrape.parse_career_history (some
        [{ header := some "Coaching career", cells := [] },
         { header := none, cells := ["Minnesota Vikings(2006–2010)"] },
         { header := some "Head coaching record", cells := [] },
         { header := none, cells := ["Dallas Cowboys(2011)"] }]) =
        [{ team := "Minnesota Vikings", role := "", year_start := 2006, year_end := 2010 }] := by
  refine ⟨?_, ?_, ?_, by decide, by decide, by decide, by decide⟩
  · intro a b c d e f g h sep ha hb hc hd he hf hg hh hsep
    exact cellEntries_range_shape ha hb hc hd he hf hg hh hsep
  · intro a b c d sep p1 p2 p3 p4 p5 p6 p7 ha hb hc hd hsep hp
    exact cellEntries_present_shape ha hb hc hd hsep hp
  · intro a b c d ha hb hc hd
    exact cellEntries_bare_shape ha hb hc hd

/-- Witness for C6 at the concrete cells `1995-1999`, `2020–Present` and
`2003`. -/
theorem claim_C6_witness :
    Scrape.cellEntries ⟨['1', '9', '9', '5', '-', '1', '9', '9', '9']⟩ =
      [{ team := "Unknown", role := "", year_start := val4 '1' '9' '9' '5',
         year_end := val4 '1' '9' '9' '9' }]
    ∧ Scrape.cellEntries ⟨['2', '0', '2', '0', '–', 'P', 'r', 'e', 's', 'e', 'n', 't']⟩ =
      [{ team := "Unknown", role := "", year_start := val4 '2' '0' '2' '0',
         year_end := PRESENT_SENTINEL }]
    ∧ Scrape.cellEntries ⟨['2', '0', '0', '3']⟩ =
      [{ team := "Unknown", role := "", year_start := val4 '2' '0' '0' '3',
         year_end := val4 '2' '0' '0' '3' }] :=
  ⟨claim_C6.1 '1' '9' '9' '5' '1' '9' '9' '9' '-'
     (by decide) (by decide) (by decide) (by decide) (by decide) (by decide)
     (by decide) (by decide) (Or.inl rfl),
   claim_C6.2.1 '2' '0' '2' '0' '–' 'P' 'r' 'e' 's' 'e' 'n' 't'
     (by decide) (by decide) (by decide) (by decide) (Or.inr rfl) (by decide),
   claim_C6.2.2.1 '2' '0' '0' '3'
     (by decide) (by decide) (by decide) (by decide)⟩

/-- Counterexample to claim C7 as stated: for the infobox cell
`(2020) Vikings`, the single-year match is `2020`; stripping the matched
year text and the parenthesis characters from the cell text and trimming
leaves `Vikings`, but the extractor truncates the cell at the first digit
and emits the placeholder `Unknown` instead. -/
theorem claim_C7_counterexample :
    Scrape.cellEntries "(2020) Vikings" =
      [{ team := "Unknown", role := "", year_start := 2020, year_end := 2020 }]
    ∧ pyStrip (removeParens ⟨removeFirstOcc "2020".data "(2020) Vikings".data⟩) = "Vikings"
    ∧ ("Unknown" : String) ≠ "Vikings" := by
  refine ⟨by decide, by decide, by decide⟩

/-- Claim C7 as amended: the entry's team name equals the portion of the
cell text before the first four-digit digit run — not the whole cell with
the year removed — stripped of whitespace and parenthesis characters; it is
the literal `Unknown` exactly when that computation yields the empty string
(or, vacuously, the string `Unknown` itself). -/
theorem claim_C7_amended :
    ∀ (text : String) (entry : Scrape.CareerEntry), entry ∈ Scrape.cellEntries text →
      entry.team = (if cellTeamText text = "" then "Unknown" else cellTeamText text)
      ∧ (entry.team = "Unknown" ↔ (cellTeamText text = "" ∨ cellTeamText text = "Unknown")) := by
  intro text entry hmem
  unfold Scrape.cellEntries at hmem
  simp only [List.mem_map] at hmem
  obtain ⟨m, -, hm⟩ := hmem
  subst hm
  refine ⟨rfl, ?_⟩
  show (if cellTeamText text = "" then "Unknown" else cellTeamText text) = "Unknown"
    ↔ (cellTeamText text = "" ∨ cellTeamText text = "Unknown")
  by_cases hempty : cellTeamText text = ""
  · simp [hempty]
  · rw [if_neg hempty]
    constructor
    · intro hu
      exact Or.inr hu
    · rintro (h1 | h2)
      · exact absurd h1 hempty
      · exact h2

/-- Witness for the amended C7 at the concrete cell
`Minnesota Vikings(2006–2010)`. -/
theorem claim_C7_amended_witness :
    ({ team := "Minnesota Vikings", role := "", year_start := 2006,
       year_end := 2010 } : Scrape.CareerEntry).team =
      (if cellTeamText "Minnesota Vikings(2006–2010)" = "" then "Unknown"
       else cellTeamText "Minnesota Vikings(2006–2010)") :=
  (claim_C7_amended "Minnesota Vikings(2006–2010)"
    { team := "Minnesota Vikings", role := "", year_start := 2006, year_end := 2010 }
    (by decide)).1

/-- The range matcher fails whenever the input does not start with a digit. -/
theorem matchRangeAt_head_not_digit {x : Char} {rest : List Char}
    (hx : x.isDigit = false) : matchRangeAt (x :: rest) = none := by
  rcases rest with _ | ⟨b, _ | ⟨c, _ | ⟨d, rest'⟩⟩⟩
  · rfl
  · rfl
  · rfl
  · simp [matchRangeAt, hx]

/-- A digit-free prefix is skipped by the range search. -/
theorem searchRange_append_no_digit :
    ∀ (pre : List Char), (∀ c ∈ pre, c.isDigit = false) →
      ∀ cs, searchRange (pre ++ cs) = searchRange cs := by
  intro pre
  induction pre with
  | nil => intro _ cs; rfl
  | cons p rest ih =>
    intro h cs
    have hp : p.isDigit = false := h p (by simp)
    have hrest : ∀ c ∈ rest, c.isDigit = false := fun c hc => h c (by simp [hc])
    show searchRange (p :: (rest ++ cs)) = searchRange cs
    simp only [searchRange, matchRangeAt_head_not_digit hp]
    exact ih hrest cs

/-- The range search fails on digit-free text. -/
theorem searchRange_no_digit {cs : List Char} (h : ∀ c ∈ cs, c.isDigit = false) :
    searchRange cs = none := by
  have hx := searchRange_append_no_digit cs h []
  simpa using hx

/-- The parenthesised-year matcher fails on digit-free text. -/
theorem matchParenYearAt_no_digit {cs : List Char}
    (h : ∀ c ∈ cs, c.isDigit = false) : matchParenYearAt cs = none := by
  unfold matchParenYearAt
  split
  · rename_i a b c d rest
    rw [if_neg]
    rintro ⟨hA, -, -, -⟩
    have : a.isDigit = false := h a (by simp)
    rw [this] at hA
    exact absurd hA (by simp)
  · rfl

/-- The parenthesised-year search fails on digit-free text. -/
theorem searchParenYear_no_digit :
    ∀ (cs : List Char), (∀ c ∈ cs, c.isDigit = false) → searchParenYear cs = none := by
  intro cs
  induction cs with
  | nil => intro _; rfl
  | cons c rest ih =>
    intro h
    have hrest : ∀ x ∈ rest, x.isDigit = false := fun x hx => h x (by simp [hx])
    simp only [searchParenYear, matchParenYearAt_no_digit h]
    exact ih hrest

/-- Claim C10: the `years` field of coaching-tree connections is computed
from the list item's context text by first taking the first occurrence of a
4-digit year, a hyphen or en-dash, and either a 4-digit year or the word
`present` (case-insensitive), joined as `start-end` with an ASCII hyphen;
otherwise a 4-digit year enclosed in parentheses yields that single year
string; otherwise the result is null.  The last conjunct checks that the
crawl script's function (used by `scrape_coaching_trees`) and the patch
script's copy (used by the klint patch) agree on every input. -/
theorem claim_C10 :
    (∀ (pre : List Char) (a b c d e f g h sep : Char),
        (∀ c ∈ pre, c.isDigit = false) →
        a.isDigit = true → b.isDigit = true → c.isDigit = true → d.isDigit = true →
        e.isDigit = true → f.isDigit = true → g.isDigit = true → h.isDigit = true →
        (sep = '-' ∨ sep = '–') →
        Scrape.extract_years_from_context ⟨pre ++ [a, b, c, d, sep, e, f, g, h]⟩ =
          some ⟨[a, b, c, d, '-', e, f, g, h]⟩)
    ∧ (∀ (a b c d sep p1 p2 p3 p4 p5 p6 p7 : Char),
        a.isDigit = true → b.isDigit = true → c.isDigit = true → d.isDigit = true →
        (sep = '-' ∨ sep = '–') →
        [p1, p2, p3, p4, p5, p6, p7].map lowerChar = "present".data →
        Scrape.extract_years_from_context ⟨[a, b, c, d, sep, p1, p2, p3, p4, p5, p6, p7]⟩ =
          some ⟨[a, b, c, d, '-', p1, p2, p3, p4, p5, p6, p7]⟩)
    ∧ (∀ (a b c d : Char),
        a.isDigit = true → b.isDigit = true → c.isDigit = true → d.isDigit = true →
        Scrape.extract_years_from_context ⟨['(', a, b, c, d, ')']⟩ = some ⟨[a, b, c, d]⟩)
    ∧ (∀ s : String, (∀ c ∈ s.data, c.isDigit = false) →
        Scrape.extract_years_from_context s = none)
    ∧ (∀ s : String,
        Scrape.extract_years_from_context s = PatchKK.extract_years_from_context s)
    ∧ Scrape.extract_years_from_context "He served under Andy Reid (2003)" = some "2003"
    ∧ Scrape.extract_years_from_context "Offensive coordinator 1995–1999 under him" =
        some "1995-1999"
    ∧ Scrape.extract_years_from_context "no years here" = none := by
  refine ⟨?_, ?_, ?_, ?_, fun s => rfl, by decide, by decide, by decide⟩
  · intro pre a b c d e f g h sep hpre ha hb hc hd he hf hg hh hsep
    have hm := matchRangeAt_digits ([] : List Char) ha hb hc hd he hf hg hh hsep
    unfold Scrape.extract_years_from_context
    show (match searchRange ("".data ++ (pre ++ [a, b, c, d, sep, e, f, g, h])) with
      | some (g1, g2) => some (⟨g1 ++ '-' :: g2⟩ : String)
      | none => match searchParenYear ("".data ++ (pre ++ [a, b, c, d, sep, e, f, g, h])) with
        | some g => some (⟨g⟩ : String)
        | none => none) = some ⟨[a, b, c, d, '-', e, f, g, h]⟩
    rw [show ("".data ++ (pre ++ [a, b, c, d, sep, e, f, g, h]))
        = pre ++ [a, b, c, d, sep, e, f, g, h] from by simp]
    rw [searchRange_append_no_digit pre hpre]
    simp [searchRange, hm]
  · intro a b c d sep p1 p2 p3 p4 p5 p6 p7 ha hb hc hd hsep hp
    have hm := matchRangeAt_present ([] : List Char) ha hb hc hd hsep hp
    unfold Scrape.extract_years_from_context
    simp [searchRange, hm]
  · intro a b c d ha hb hc hd
    have hsr : searchRange ['(', a, b, c, d, ')'] = none := by
      simp [searchRange, matchRangeAt, ha, hb, hc, hd, List.dropWhile,
            matchRangeAt_head_not_digit]
    unfold Scrape.extract_years_from_context
    simp [hsr, searchParenYear, matchParenYearAt, ha, hb, hc, hd]
  · intro s hs
    unfold Scrape.extract_years_from_context
    rw [searchRange_no_digit hs, searchParenYear_no_digit s.data hs]

/-- Witness for C10 at concrete context snippets. -/
theorem claim_C10_witness :
    Scrape.extract_years_from_context ⟨"from ".data ++ ['1', '9', '9', '5', '–', '1', '9', '9', '9']⟩ =
      some ⟨['1', '9', '9', '5', '-', '1', '9', '9', '9']⟩
    ∧ Scrape.extract_years_from_context ⟨['2', '0', '2', '0', '-', 'p', 'r', 'e', 's', 'e', 'n', 't']⟩ =
      some ⟨['2', '0', '2', '0', '-', 'p', 'r', 'e', 's', 'e', 'n', 't']⟩
    ∧ Scrape.extract_years_from_context ⟨['(', '2', '0', '0', '3', ')']⟩ = some ⟨['2', '0', '0', '3']⟩
    ∧ Scrape.extract_years_from_context "n/a" = none :=
  ⟨claim_C10.1 "from ".data '1' '9' '9' '5' '1' '9' '9' '9' '–' (by decide)
     (by decide) (by decide) (by decide) (by decide) (by decide) (by decide)
     (by decide) (by decide) (Or.inr rfl),
   claim_C10.2.1 '2' '0' '2' '0' '-' 'p' 'r' 'e' 's' 'e' 'n' 't'
     (by decide) (by decide) (by decide) (by decide) (Or.inl rfl) (by decide),
   claim_C10.2.2.1 '2' '0' '0' '3' (by decide) (by decide) (by decide) (by decide),
   claim_C10.2.2.2.1 "n/a" (by decide)⟩

/-- The crawl script's paragraph rule (which also tests the redundant
`has served under`, subsumed by `served under`) agrees with claim C4's
wording of the rule. -/
theorem contextUpdate_eq_spec (st p : String) :
    Scrape.contextUpdate st p = SpecClassifier.update st p := by
  unfold Scrape.contextUpdate SpecClassifier.update
  have hiff : (strContains p "served under" = true ∨ strContains p "has served under" = true
      ∨ strContains p "worked under" = true)
      ↔ (strContains p "served under" = true ∨ strContains p "worked under" = true) := by
    constructor
    · rintro (h1 | h2 | h3)
      · exact Or.inl h1
      · exact Or.inl (strContains_mono (by decide) h2)
      · exact Or.inr h3
    · rintro (h1 | h3)
      · exact Or.inl h1
      · exact Or.inr (Or.inr h3)
  rw [if_congr hiff rfl rfl]

/-- The crawl script's section loop agrees with claim C4's two-pass
description from any starting state. -/
theorem treeLoop_eq_spec : ∀ (elems : List SElem) (st : String),
    Scrape.treeLoop st elems = SpecClassifier.emit st elems := by
  intro elems
  induction elems with
  | nil => intro st; rfl
  | cons e rest ih =>
    intro st
    cases e with
    | p t =>
      show Scrape.treeLoop (Scrape.contextUpdate st (lowerStr t)) rest
        = SpecClassifier.emit (SpecClassifier.update st (lowerStr t)) rest
      rw [contextUpdate_eq_spec]
      exact ih _
    | ulist items =>
      show items.filterMap (Scrape.itemResult Scrape.is_person_link st) ++ Scrape.treeLoop st rest
        = items.filterMap _ ++ SpecClassifier.emit st rest
      rw [ih st]
      rfl

/-- Claim C4: within one coaching-tree section, each list item's
relationship role equals the running paragraph-level state (initialised to
`protege`, set to `mentor` by paragraphs containing `served under` /
`worked under`, reset to `protege` by the assistant/protege rules, unchanged
otherwise), except that a list item whose own text contains `served under`
or `worked under` is assigned `mentor` regardless of that state; and a
section whose only paragraph reads `He later served under Bill Belichick.`
followed by a list of names yields role `mentor` for every subsequent list
item. -/
theorem claim_C4 :
    (∀ elems : List SElem,
      Scrape.parse_coaching_tree_section elems = SpecClassifier.emit "protege" elems)
    ∧ (Scrape.parse_coaching_tree_section
        [SElem.p "He later served under Bill Belichick.",
         SElem.ulist
           [{ text := "Bill Belichick", links := [{ title := some "Bill Belichick", text := "Bill Belichick" }] },
            { text := "Nick Saban", links := [{ title := some "Nick Saban", text := "Nick Saban" }] }]]).map
        (fun m => m.rel) = ["mentor", "mentor"] := by
  constructor
  · intro elems
    exact treeLoop_eq_spec elems "protege"
  · decide

/-- Claim C8 evaluated at the failing input: the crawl script's fetch
boundary converts every failure outcome (timeout, transport error, non-200
status, malformed JSON, missing field) to a `None` result, but the klint
patch script's copy has no `try`/`except`, so a non-200 response — and every
other raised failure — propagates out of its `fetch_page_html` and aborts
the whole run before any merge happens, although the caller's
`if not html` branch expects a `None` result there. -/
theorem claim_C8_fetch_boundary :
    (∀ o : FetchOutcome, (∀ p, o ≠ FetchOutcome.parsed p) →
        Scrape.fetch_page_html o = none)
    ∧ PatchKK.fetch_page_html FetchOutcome.httpError =
        Except.error "requests.exceptions.HTTPError"
    ∧ PatchKK.fetch_page_html FetchOutcome.timeout =
        Except.error "requests.exceptions.Timeout"
    ∧ PatchKK.fetch_page_html FetchOutcome.malformedJson =
        Except.error "requests.exceptions.JSONDecodeError"
    ∧ PatchKK.run FetchOutcome.httpError { coaches := [], connections := [] } =
        Except.error "requests.exceptions.HTTPError" := by
  refine ⟨?_, rfl, rfl, rfl, rfl⟩
  intro o ho
  cases o with
  | parsed p => exact absurd rfl (ho p)
  | missingField => rfl
  | timeout => rfl
  | transportError => rfl
  | httpError => rfl
  | malformedJson => rfl

/-- Witness for C8 at a concrete non-`parsed` outcome. -/
theorem claim_C8_fetch_boundary_witness :
    Scrape.fetch_page_html FetchOutcome.timeout = none :=
  claim_C8_fetch_boundary.1 FetchOutcome.timeout (fun p h => by cases h)

/-- Claim C1 evaluated at the failing input (the klint patch, a failed
fetch, starting from the empty dataset): the first run inserts the manual
Gary Kubiak connection, but the second run removes it — the stale-entry
removal drops every connection touching `klint-kubiak`, and the duplicate
check then consults `existing_conns`, a snapshot taken before that removal,
so the connection is skipped as "already present" and never re-inserted.
Re-running the patch therefore removes data instead of being idempotent. -/
theorem claim_C1_klint_rerun_loses_connections :
    (PatchKK.main none { coaches := [], connections := [] }).connections =
      [{ source := "gary-kubiak", target := "klint-kubiak", type := "coaching_tree",
         years := none, context := some "Son and coaching protege of Gary Kubiak" }]
    ∧ (PatchKK.main none (PatchKK.main none { coaches := [], connections := [] })).connections = []
    ∧ PatchKK.main none (PatchKK.main none { coaches := [], connections := [] }) ≠
        PatchKK.main none { coaches := [], connections := [] } := by
  refine ⟨by decide, by decide, by decide⟩

/-- Counterexample to claim C2 as stated: run the klint patch (with a failed
fetch) on the empty dataset.  The manual connection loop checks only for
duplicates, not for endpoint existence, so the merged dataset contains the
connection `gary-kubiak → klint-kubiak` although no coach record with id
`gary-kubiak` exists — and no warning/skip happens. -/
theorem claim_C2_counterexample :
    (PatchKK.main none { coaches := [], connections := [] }).connections =
      [{ source := "gary-kubiak", target := "klint-kubiak", type := "coaching_tree",
         years := none, context := some "Son and coaching protege of Gary Kubiak" }]
    ∧ (PatchKK.main none { coaches := [], connections := [] }).coaches.map
        (fun c => c.id) = ["klint-kubiak"]
    ∧ ¬ refIntegrity (PatchKK.main none { coaches := [], connections := [] }) := by
  refine ⟨by decide, by decide, ?_⟩
  intro h
  have hc := h { source := "gary-kubiak", target := "klint-kubiak", type := "coaching_tree",
                 years := none, context := some "Son and coaching protege of Gary Kubiak" }
    (by decide)
  revert hc
  decide

/-- Invariant of the patch scripts' coach-insertion loop: every registered
id labels a coach record, and ids only grow. -/
def CoachIdsInv (base : List String)
    (st : List Coach × List String) : Prop :=
  (∀ x ∈ st.2, x ∈ st.1.map (fun c => c.id)) ∧ (∀ x ∈ base, x ∈ st.2)

/-- `PatchMC.coachStep` preserves the id/record invariant. -/
theorem coachStep_inv (base : List String) (st : List Coach × List String)
    (coach : Coach) (h : CoachIdsInv base st) :
    CoachIdsInv base (PatchMC.coachStep st coach) := by
  obtain ⟨coaches, ids⟩ := st
  obtain ⟨h1, h2⟩ := h
  unfold PatchMC.coachStep
  show CoachIdsInv base
    (if coach.id ∈ ids then (coaches, ids) else (coaches ++ [coach], coach.id :: ids))
  by_cases hmem : coach.id ∈ ids
  · rw [if_pos hmem]
    exact ⟨h1, h2⟩
  · rw [if_neg hmem]
    refine ⟨?_, ?_⟩
    · intro x hx
      rcases List.mem_cons.mp hx with rfl | hx'
      · simp
      · have := h1 x hx'
        simp only [List.map_append]
        exact List.mem_append_left _ this
    · intro x hx
      exact List.mem_cons_of_mem _ (h2 x hx)

/-- Invariant of the connection-insertion loop of
`patch_missing_connections.py`: every connection's endpoints are registered
ids. -/
def ConnEndpointsInv (ids : List String)
    (st : List Conn × List (String × String)) : Prop :=
  ∀ c ∈ st.1, c.source ∈ ids ∧ c.target ∈ ids

/-- `PatchMC.connStep` preserves the endpoint invariant: the only inserting
branch is guarded by both endpoint checks. -/
theorem connStep_inv (ids : List String) (st : List Conn × List (String × String))
    (nc : String × String × String) (h : ConnEndpointsInv ids st) :
    ConnEndpointsInv ids (PatchMC.connStep ids st nc) := by
  obtain ⟨conns, cset⟩ := st
  obtain ⟨source, target, context⟩ := nc
  unfold PatchMC.connStep
  show ConnEndpointsInv ids
    (if (source, target) ∈ cset ∨ (target, source) ∈ cset then (conns, cset)
     else if ¬ (source ∈ ids) then (conns, cset)
     else if ¬ (target ∈ ids) then (conns, cset)
     else (conns ++ [{ source := source, target := target, type := "coaching_tree",
                       years := none, context := some context }],
           (source, target) :: cset))
  by_cases hdup : (source, target) ∈ cset ∨ (target, source) ∈ cset
  · rw [if_pos hdup]
    exact h
  · rw [if_neg hdup]
    by_cases hsrc : source ∈ ids
    · rw [if_neg (by simpa using hsrc)]
      by_cases htgt : target ∈ ids
      · rw [if_neg (by simpa using htgt)]
        intro c hc
        rcases List.mem_append.mp hc with hc' | hc'
        · exact h c hc'
        · rcases List.mem_singleton.mp hc' with rfl
          exact ⟨hsrc, htgt⟩
      · rw [if_pos (by simpa using htgt)]
        exact h
    · rw [if_pos (by simpa using hsrc)]
      exact h

/-- `patch_missing_connections.py` preserves referential integrity: new
coaches are only appended, and a new connection is inserted only after both
its endpoints are verified against the registered ids. -/
theorem patchMC_preserves_refIntegrity (d : Dataset) (h : refIntegrity d) :
    refIntegrity (PatchMC.main d) := by
  unfold PatchMC.main
  have hbase : CoachIdsInv (d.coaches.map (fun c => c.id))
      (d.coaches, d.coaches.map (fun c => c.id)) :=
    ⟨fun x hx => hx, fun x hx => hx⟩
  have hfold := foldl_preserve (CoachIdsInv (d.coaches.map (fun c => c.id)))
    PatchMC.coachStep (coachStep_inv _) PatchMC.NEW_COACHES
    (d.coaches, d.coaches.map (fun c => c.id)) hbase
  set folded := PatchMC.NEW_COACHES.foldl PatchMC.coachStep
    (d.coaches, d.coaches.map (fun c => c.id)) with hfolded
  obtain ⟨hids, hgrow⟩ := hfold
  have hconnbase : ConnEndpointsInv folded.2
      (d.connections, d.connections.map (fun c => (c.source, c.target))) := by
    intro c hc
    obtain ⟨hs, ht⟩ := h c hc
    exact ⟨hgrow _ hs, hgrow _ ht⟩
  have hconnfold := foldl_preserve (ConnEndpointsInv folded.2)
    (PatchMC.connStep folded.2) (connStep_inv _) PatchMC.NEW_CONNECTIONS
    (d.connections, d.connections.map (fun c => (c.source, c.target))) hconnbase
  intro c hc
  simp only at hc
  obtain ⟨hs, ht⟩ := hconnfold c hc
  exact ⟨hids _ hs, hids _ ht⟩

/-- Invariant of the klint patch's scraped-connection loop, relative to the
coach list `base` present when the loop starts: registered ids label coach
records, accumulated connections have both endpoints among the coach
records, and the coach list only grows. -/
def KlintInv (base : List Coach)
    (st : List Conn × List (String × String) × List Coach × List String) : Prop :=
  (∀ x ∈ st.2.2.2, x ∈ st.2.2.1.map (fun c => c.id))
  ∧ (∀ c ∈ st.1, c.source ∈ st.2.2.1.map (fun c => c.id)
      ∧ c.target ∈ st.2.2.1.map (fun c => c.id))
  ∧ (∀ x ∈ base.map (fun c => c.id), x ∈ st.2.2.1.map (fun c => c.id))

/-- `PatchKK.scrapedStep` preserves the invariant: the inserted connection's
endpoints are the klint id (in `base`) and the linked id, which the same
step registers when missing. -/
theorem scrapedStep_inv (base : List Coach)
    (hklint : PatchKK.klint_id ∈ base.map (fun c => c.id))
    (st : List Conn × List (String × String) × List Coach × List String)
    (m : TreeMember) (h : KlintInv base st) :
    KlintInv base (PatchKK.scrapedStep st m) := by
  obtain ⟨newConns, cset, coaches, ids⟩ := st
  obtain ⟨h1, h2, h3⟩ := h
  simp only [KlintInv] at h1 h2 h3 ⊢
  unfold PatchKK.scrapedStep
  simp only
  set linked_id := make_id m.linkText with hlinked
  have hnext : ∀ (pair : List Coach × List String),
      pair = (if linked_id ∈ ids then (coaches, ids)
              else (coaches ++ [{ id := linked_id, name := m.linkText,
                                  current_team := none, is_current_hc := false }],
                    linked_id :: ids)) →
      (∀ x ∈ pair.2, x ∈ pair.1.map (fun c => c.id))
      ∧ (∀ x ∈ coaches.map (fun c => c.id), x ∈ pair.1.map (fun c => c.id))
      ∧ linked_id ∈ pair.1.map (fun c => c.id) := by
    intro pair hpair
    by_cases hmem : linked_id ∈ ids
    · rw [if_pos hmem] at hpair
      subst hpair
      exact ⟨h1, fun x hx => hx, h1 _ hmem⟩
    · rw [if_neg hmem] at hpair
      subst hpair
      refine ⟨?_, ?_, ?_⟩
      · intro x hx
        rcases List.mem_cons.mp hx with rfl | hx'
        · simp
        · simp only [List.map_append]
          exact List.mem_append_left _ (h1 x hx')
      · intro x hx
        simp only [List.map_append]
        exact List.mem_append_left _ hx
      · simp
  obtain ⟨g1, g2, g3⟩ := hnext _ rfl
  constructor
  · exact g1
  constructor
  · intro c hc
    by_cases hdup : ((if m.rel = "mentor" then (linked_id, PatchKK.klint_id)
        else (PatchKK.klint_id, linked_id)).1,
        (if m.rel = "mentor" then (linked_id, PatchKK.klint_id)
        else (PatchKK.klint_id, linked_id)).2) ∈ cset
      ∨ ((if m.rel = "mentor" then (linked_id, PatchKK.klint_id)
        else (PatchKK.klint_id, linked_id)).2,
        (if m.rel = "mentor" then (linked_id, PatchKK.klint_id)
        else (PatchKK.klint_id, linked_id)).1) ∈ cset
    · rw [if_pos hdup] at hc
      obtain ⟨hs, ht⟩ := h2 c hc
      exact ⟨g2 _ hs, g2 _ ht⟩
    · rw [if_neg hdup] at hc
      rcases List.mem_append.mp hc with hc' | hc'
      · obtain ⟨hs, ht⟩ := h2 c hc'
        exact ⟨g2 _ hs, g2 _ ht⟩
      · rcases List.mem_singleton.mp hc' with rfl
        by_cases hrel : m.rel = "mentor"
        · simp only [hrel, if_pos rfl]
          exact ⟨g3, g2 _ (h3 _ hklint)⟩
        · simp only [if_neg hrel]
          exact ⟨g2 _ (h3 _ hklint), g3⟩
  · intro x hx
    exact g2 _ (h3 x hx)

/-- Fold preservation with membership of the step element. -/
theorem foldl_preserve_mem {α β : Type} (P : β → Prop) (f : β → α → β) :
    ∀ (l : List α), (∀ b a, a ∈ l → P b → P (f b a)) →
      ∀ b, P b → P (l.foldl f b) := by
  intro l
  induction l with
  | nil => intro _ b hb; exact hb
  | cons x xs ih =>
    intro hstep b hb
    exact ih (fun b a ha hb' => hstep b a (List.mem_cons_of_mem _ ha) hb')
      (f b x) (hstep b x (List.mem_cons_self _ _) hb)

/-- The klint id is among the re-inserted coaches. -/
theorem klint_mem_coachesAfterReinsert (d : Dataset) :
    PatchKK.klint_id ∈ (PatchKK.coachesAfterReinsert d).map (fun c => c.id) := by
  unfold PatchKK.coachesAfterReinsert
  simp

/-- Every pre-existing coach id is still present after the klint
remove-and-reinsert. -/
theorem mem_coachesAfterReinsert_of_mem (d : Dataset) {x : String}
    (hx : x ∈ d.coaches.map (fun c => c.id)) :
    x ∈ (PatchKK.coachesAfterReinsert d).map (fun c => c.id) := by
  unfold PatchKK.coachesAfterReinsert
  by_cases hkl : x = PatchKK.klint_id
  · subst hkl
    simp
  · obtain ⟨c, hc, rfl⟩ := List.mem_map.mp hx
    simp only [List.map_append, List.mem_append]
    exact Or.inl (List.mem_map.mpr ⟨c, List.mem_filter.mpr ⟨hc, by simpa using hkl⟩, rfl⟩)

/-- The scraped-connection state satisfies the klint invariant for every
fetch result. -/
theorem scrapedState_inv (fetched : Option PageData) (d : Dataset) :
    KlintInv (PatchKK.coachesAfterReinsert d) (PatchKK.scrapedState fetched d) := by
  have hbase : KlintInv (PatchKK.coachesAfterReinsert d)
      (([] : List Conn), d.connections.map (fun c => (c.source, c.target)),
       PatchKK.coachesAfterReinsert d, d.coaches.map (fun c => c.id)) := by
    refine ⟨?_, ?_, ?_⟩
    · intro x hx
      exact mem_coachesAfterReinsert_of_mem d hx
    · intro c hc
      exact absurd hc (List.not_mem_nil c)
    · intro x hx
      exact hx
  cases fetched with
  | none => exact hbase
  | some page =>
    exact foldl_preserve _ PatchKK.scrapedStep
      (scrapedStep_inv _ (klint_mem_coachesAfterReinsert d)) _ _ hbase

/-- `patch_klint_kubiak.py` preserves referential integrity provided the
input dataset already contains a `gary-kubiak` coach record (which the
manual-connection path silently assumes). -/
theorem patchKK_preserves_refIntegrity (fetched : Option PageData) (d : Dataset)
    (h : refIntegrity d)
    (hgary : "gary-kubiak" ∈ d.coaches.map (fun c => c.id)) :
    refIntegrity (PatchKK.main fetched d) := by
  obtain ⟨hids, hconns, hgrow⟩ := scrapedState_inv fetched d
  set st := PatchKK.scrapedState fetched d with hst
  obtain ⟨newConns1, cset1, coaches2, ids1⟩ := st
  simp only at hids hconns hgrow
  have hgary2 : "gary-kubiak" ∈ coaches2.map (fun c => c.id) := by
    apply hgrow
    exact mem_coachesAfterReinsert_of_mem d hgary
  have hklint2 : PatchKK.klint_id ∈ coaches2.map (fun c => c.id) :=
    hgrow _ (klint_mem_coachesAfterReinsert d)
  have hmanual : ∀ c ∈ (PatchKK.manualConnections.foldl PatchKK.manualStep
      (newConns1, cset1)).1,
      c.source ∈ coaches2.map (fun x => x.id) ∧ c.target ∈ coaches2.map (fun x => x.id) := by
    have hpres := foldl_preserve_mem
      (fun (st2 : List Conn × List (String × String)) =>
        ∀ c ∈ st2.1, c.source ∈ coaches2.map (fun x => x.id)
          ∧ c.target ∈ coaches2.map (fun x => x.id))
      PatchKK.manualStep PatchKK.manualConnections ?_ (newConns1, cset1) hconns
    · exact hpres
    · intro b mc hmc hb
      obtain ⟨nc, cs⟩ := b
      have hmc' : mc = ("gary-kubiak", PatchKK.klint_id, "coaching_tree",
          (none : Option String), "Son and coaching protege of Gary Kubiak") := by
        simpa [PatchKK.manualConnections] using hmc
      subst hmc'
      unfold PatchKK.manualStep
      show ∀ c ∈ (if ("gary-kubiak", PatchKK.klint_id) ∈ cs
          ∨ (PatchKK.klint_id, "gary-kubiak") ∈ cs then (nc, cs)
        else (nc ++ [{ source := "gary-kubiak", target := PatchKK.klint_id,
                       type := "coaching_tree", years := none,
                       context := some "Son and coaching protege of Gary Kubiak" }],
              ("gary-kubiak", PatchKK.klint_id) :: cs)).1, _
      by_cases hdup : ("gary-kubiak", PatchKK.klint_id) ∈ cs
          ∨ (PatchKK.klint_id, "gary-kubiak") ∈ cs
      · rw [if_pos hdup]
        exact hb
      · rw [if_neg hdup]
        intro c hc
        rcases List.mem_append.mp hc with hc' | hc'
        · exact hb c hc'
        · rcases List.mem_singleton.mp hc' with rfl
          exact ⟨hgary2, hklint2⟩
  intro c hc
  simp only [PatchKK.main, PatchKK.manualState, ← hst] at hc ⊢
  rcases List.mem_append.mp hc with hc' | hc'
  · have hmem := List.mem_filter.mp hc'
    obtain ⟨hcd, hne⟩ := hmem
    obtain ⟨hs, ht⟩ := h c hcd
    simp only [decide_eq_true_eq] at hne
    constructor
    · apply hgrow
      exact mem_coachesAfterReinsert_of_mem d hs
    · apply hgrow
      exact mem_coachesAfterReinsert_of_mem d ht
  · exact hmanual c hc'

/-- Claim C2 as amended: after a merge, referential integrity holds with the
following split.  `patch_missing_connections.py` preserves it
unconditionally for every input that satisfies it — each candidate
connection is skipped (with a warning) when either endpoint id is not a
known coach.  `patch_klint_kubiak.py` guarantees endpoints for the scraped
connections (it inserts the missing linked coach in the same step), but its
manual Gary Kubiak connection is inserted without any endpoint check, so it
preserves integrity only when a `gary-kubiak` coach record already exists. -/
theorem claim_C2_amended :
    (∀ d : Dataset, refIntegrity d → refIntegrity (PatchMC.main d))
    ∧ (∀ (fetched : Option PageData) (d : Dataset), refIntegrity d →
        "gary-kubiak" ∈ d.coaches.map (fun c => c.id) →
        refIntegrity (PatchKK.main fetched d)) :=
  ⟨patchMC_preserves_refIntegrity, patchKK_preserves_refIntegrity⟩

/-- Witness for the amended C2 at concrete datasets. -/
theorem claim_C2_amended_witness :
    refIntegrity (PatchMC.main { coaches := [], connections := [] })
    ∧ refIntegrity (PatchKK.main none
        { coaches := [{ id := "gary-kubiak", name := "Gary Kubiak",
                        current_team := none, is_current_hc := false }],
          connections := [] }) :=
  ⟨claim_C2_amended.1 { coaches := [], connections := [] }
     (fun c hc => absurd hc (List.not_mem_nil c)),
   claim_C2_amended.2 none
     { coaches := [{ id := "gary-kubiak", name := "Gary Kubiak",
                     current_team := none, is_current_hc := false }],
       connections := [] }
     (fun c hc => absurd hc (List.not_mem_nil c)) (by decide)⟩

/-- Counterexample to claim C9 as stated: the patch script's skip-word set
lacks the crawl script's team-nickname entries, so the two link classifiers
disagree on the link text `Chicago Bears`; and the patch script's career
extractor lacks the `achievements`/`honors` exit keywords, so the two career
extractors disagree on an infobox whose coaching block is followed by an
`Honors` section. -/
theorem claim_C9_counterexample :
    Scrape.is_person_link "Chicago Bears" = false
    ∧ PatchKK.is_person_link "Chicago Bears" = true
    ∧ (Scrape.parse_career_history (some
        [{ header := some "Coaching career", cells := [] },
         { header := some "Honors", cells := [] },
         { header := none, cells := ["Vikings(2006)"] }])).map careerTriple = []
    ∧ (PatchKK.parse_infobox_career (some
        [{ header := some "Coaching career", cells := [] },
         { header := some "Honors", cells := [] },
         { header := none, cells := ["Vikings(2006)"] }])).map careerTripleKK =
      [("Vikings", 2006, 2006)] := by
  refine ⟨by decide, by decide, by decide, by decide⟩

/-- Pointwise-equal predicates find the same first element. -/
theorem find?_congr' {α : Type} (p q : α → Bool) :
    ∀ l : List α, (∀ x ∈ l, p x = q x) → l.find? p = l.find? q := by
  intro l
  induction l with
  | nil => intro _; rfl
  | cons x xs ih =>
    intro h
    rw [List.find?_cons, List.find?_cons, h x (by simp)]
    cases q x
    · exact ih (fun y hy => h y (by simp [hy]))
    · rfl

/-- The two link classifiers agree on every link text that mentions none of
the crawl-only skip words. -/
theorem is_person_link_eq {s : String} (h : NoExtraSkipWords s) :
    Scrape.is_person_link s = PatchKK.is_person_link s := by
  have hany : Scrape.SKIP_LINK_WORDS.any (fun skip => strContains (lowerStr s) skip)
      = PatchKK.SKIP_LINK_WORDS.any (fun skip => strContains (lowerStr s) skip) := by
    rw [show Scrape.SKIP_LINK_WORDS = PatchKK.SKIP_LINK_WORDS ++ extraSkipWords from rfl,
        List.any_append]
    have hextra : extraSkipWords.any (fun skip => strContains (lowerStr s) skip) = false := by
      rw [List.any_eq_false]
      intro w hw
      simp [h w hw]
    rw [hextra, Bool.or_false]
  unfold Scrape.is_person_link PatchKK.is_person_link
  simp only [hany]

/-- The two item extractors agree on a list item whose links avoid the
crawl-only skip words. -/
theorem itemResult_eq {li : LItem} (st : String)
    (h : ∀ link ∈ li.links, NoExtraSkipWords link.text) :
    Scrape.itemResult Scrape.is_person_link st li = PatchKK.itemResult st li := by
  unfold Scrape.itemResult PatchKK.itemResult
  rw [find?_congr'
    (fun link => (match link.title with
      | some t => t != ""
      | none => false) && Scrape.is_person_link link.text)
    (fun link => (match link.title with
      | some t => t != ""
      | none => false) && PatchKK.is_person_link link.text)
    li.links
    (fun link hlink => by simp only [is_person_link_eq (h link hlink)])]

/-- The two section parsers agree on a section whose link texts avoid the
crawl-only skip words, from any starting state. -/
theorem treeLoop_eq_patch : ∀ (elems : List SElem), (∀ e ∈ elems, ElemNoExtraSkipWords e) →
    ∀ st, Scrape.treeLoop st elems = PatchKK.treeLoop st elems := by
  intro elems
  induction elems with
  | nil => intro _ st; rfl
  | cons e rest ih =>
    intro h st
    have hrest : ∀ x ∈ rest, ElemNoExtraSkipWords x := fun x hx => h x (by simp [hx])
    cases e with
    | p t =>
      show Scrape.treeLoop (Scrape.contextUpdate st (lowerStr t)) rest
        = PatchKK.treeLoop (PatchKK.contextUpdate st (lowerStr t)) rest
      rw [show PatchKK.contextUpdate = SpecClassifier.update from rfl,
          ← contextUpdate_eq_spec]
      exact ih hrest _
    | ulist items =>
      have hitems : ∀ li ∈ items, ∀ link ∈ li.links, NoExtraSkipWords link.text := by
        have := h (SElem.ulist items) (by simp)
        simpa [ElemNoExtraSkipWords] using this
      show items.filterMap (Scrape.itemResult Scrape.is_person_link st)
          ++ Scrape.treeLoop st rest
        = items.filterMap (PatchKK.itemResult st) ++ PatchKK.treeLoop st rest
      rw [ih hrest st,
          List.filterMap_congr (fun li hli => itemResult_eq st (hitems li hli))]

/-- The two cell extractors produce the same `(team, year_start, year_end)`
triples on every cell. -/
theorem cellEntries_triple_eq (text : String) :
    (Scrape.cellEntries text).map careerTriple
      = (PatchKK.cellEntries text).map careerTripleKK := by
  unfold Scrape.cellEntries PatchKK.cellEntries
  simp only [List.map_map]
  rfl

/-- The cells of one row produce the same triples under both extractors. -/
theorem rowCells_triple_eq (cells : List String) :
    ((cells.map Scrape.cellEntries).flatten).map careerTriple
      = ((cells.map PatchKK.cellEntries).flatten).map careerTripleKK := by
  rw [List.map_flatten, List.map_flatten, List.map_map, List.map_map]
  congr 1
  apply List.map_congr_left
  intro text _
  exact cellEntries_triple_eq text

/-- The two career extractors' block-exit tests agree on a header that
mentions neither `achievements` nor `honors` (`bowl record` is subsumed by
`record`). -/
theorem careerExit_eq {hd : String}
    (hach : strContains (lowerStr hd) "achievements" = false)
    (hhon : strContains (lowerStr hd) "honors" = false) :
    Scrape.careerExitKeywords.any (fun kw => strContains (lowerStr hd) kw)
      = PatchKK.careerExitKeywords.any (fun kw => strContains (lowerStr hd) kw) := by
  rw [show Scrape.careerExitKeywords = PatchKK.careerExitKeywords ++ extraCareerKeywords
      from rfl, List.any_append]
  cases hpat : PatchKK.careerExitKeywords.any (fun kw => strContains (lowerStr hd) kw) with
  | true => simp
  | false =>
    have hrecord : strContains (lowerStr hd) "record" = false := by
      have hr := List.any_eq_false.mp hpat "record" (by decide)
      simpa using hr
    have hbowl : strContains (lowerStr hd) "bowl record" = false := by
      cases hb : strContains (lowerStr hd) "bowl record" with
      | false => rfl
      | true =>
        have hrec2 : strContains (lowerStr hd) "record" = true :=
          strContains_mono (by decide) hb
        rw [hrec2] at hrecord
        exact absurd hrecord (by simp)
    have hextra : extraCareerKeywords.any (fun kw => strContains (lowerStr hd) kw) = false := by
      rw [List.any_eq_false]
      intro w hw
      have hw' : w = "bowl record" ∨ w = "achievements" ∨ w = "honors" := by
        simpa [extraCareerKeywords] using hw
      rcases hw' with rfl | rfl | rfl
      · simp [hbowl]
      · simp [hach]
      · simp [hhon]
    rw [hextra]
    simp

/-- The two career-row loops produce the same triples on an infobox whose
headers avoid `achievements` and `honors`, from either toggle state. -/
theorem careerRows_eq : ∀ (rows : List IRow), RowsNoExtraKeywords rows →
    ∀ inC, (Scrape.careerRows inC rows).map careerTriple
      = (PatchKK.careerRows inC rows).map careerTripleKK := by
  intro rows
  induction rows with
  | nil => intro _ inC; rfl
  | cons row rest ih =>
    intro h inC
    have hrest : RowsNoExtraKeywords rest := fun r hr hd hhd =>
      h r (List.mem_cons_of_mem _ hr) hd hhd
    obtain ⟨hdr, cells⟩ := row
    cases hdr with
    | none =>
      show (if inC then ((cells.map Scrape.cellEntries).flatten)
          ++ Scrape.careerRows inC rest else Scrape.careerRows inC rest).map careerTriple
        = (if inC then ((cells.map PatchKK.cellEntries).flatten)
          ++ PatchKK.careerRows inC rest else PatchKK.careerRows inC rest).map careerTripleKK
      by_cases hin : inC
      · rw [if_pos hin, if_pos hin, List.map_append, List.map_append,
            rowCells_triple_eq, ih hrest inC]
      · rw [if_neg hin, if_neg hin, ih hrest inC]
    | some hd =>
      obtain ⟨hach, hhon⟩ := h ⟨some hd, cells⟩ (by simp) hd rfl
      show (if strContains (lowerStr hd) "coaching career" = true
            ∨ strContains (lowerStr hd) "career history" = true then
          Scrape.careerRows true rest
        else if inC ∧ Scrape.careerExitKeywords.any
            (fun kw => strContains (lowerStr hd) kw) = true then
          Scrape.careerRows false rest
        else if inC then ((cells.map Scrape.cellEntries).flatten)
          ++ Scrape.careerRows inC rest
        else Scrape.careerRows inC rest).map careerTriple
        = (if strContains (lowerStr hd) "coaching career" = true
            ∨ strContains (lowerStr hd) "career history" = true then
          PatchKK.careerRows true rest
        else if inC ∧ PatchKK.careerExitKeywords.any
            (fun kw => strContains (lowerStr hd) kw) = true then
          PatchKK.careerRows false rest
        else if inC then ((cells.map PatchKK.cellEntries).flatten)
          ++ PatchKK.careerRows inC rest
        else PatchKK.careerRows inC rest).map careerTripleKK
      by_cases henter : strContains (lowerStr hd) "coaching career" = true
          ∨ strContains (lowerStr hd) "career history" = true
      · rw [if_pos henter, if_pos henter, ih hrest true]
      · rw [if_neg henter, if_neg henter]
        rw [careerExit_eq hach hhon]
        by_cases hexit : inC ∧ PatchKK.careerExitKeywords.any
            (fun kw => strContains (lowerStr hd) kw) = true
        · rw [if_pos hexit, if_pos hexit, ih hrest false]
        · rw [if_neg hexit, if_neg hexit]
          by_cases hin : inC
          · rw [if_pos hin, if_pos hin, List.map_append, List.map_append,
                rowCells_triple_eq, ih hrest inC]
          · rw [if_neg hin, if_neg hin, ih hrest inC]

/-- Claim C9 as amended: the patch script carries its own copies of the
extractors, which agree with the crawl script's only conditionally.  The
link classifiers agree exactly on link texts that mention none of the 37
team-nickname skip words present only in the crawl script's block list; the
coaching-tree section parsers agree on sections whose link texts satisfy
the same condition; and the infobox career extractors produce the same
`(team, year_start, year_end)` entries exactly on infoboxes whose headers
mention neither `achievements` nor `honors` (the crawl-only exit keywords
not subsumed by `record`). -/
theorem claim_C9_amended :
    (∀ s : String, NoExtraSkipWords s →
        Scrape.is_person_link s = PatchKK.is_person_link s)
    ∧ (∀ elems : List SElem, (∀ e ∈ elems, ElemNoExtraSkipWords e) →
        Scrape.parse_coaching_tree_section elems
          = PatchKK.parse_coaching_tree_section elems)
    ∧ (∀ rows : List IRow, RowsNoExtraKeywords rows →
        (Scrape.parse_career_history (some rows)).map careerTriple
          = (PatchKK.parse_infobox_career (some rows)).map careerTripleKK) := by
  refine ⟨fun s h => is_person_link_eq h, ?_, ?_⟩
  · intro elems h
    exact treeLoop_eq_patch elems h "protege"
  · intro rows h
    exact careerRows_eq rows h false

/-- Witness for the amended C9 at a concrete link text, section and
infobox. -/
theorem claim_C9_amended_witness :
    Scrape.is_person_link "Bill Walsh" = PatchKK.is_person_link "Bill Walsh"
    ∧ Scrape.parse_coaching_tree_section
        [SElem.p "He later served under Bill Belichick.",
         SElem.ulist [{ text := "Bill Belichick",
                        links := [{ title := some "Bill Belichick", text := "Bill Belichick" }] }]]
      = PatchKK.parse_coaching_tree_section
        [SElem.p "He later served under Bill Belichick.",
         SElem.ulist [{ text := "Bill Belichick",
                        links := [{ title := some "Bill Belichick", text := "Bill Belichick" }] }]]
    ∧ (Scrape.parse_career_history (some
        [{ header := some "Coaching career", cells := [] },
         { header := none, cells := ["Minnesota Vikings(2006–2010)"] }])).map careerTriple
      = (PatchKK.parse_infobox_career (some
        [{ header := some "Coaching career", cells := [] },
         { header := none, cells := ["Minnesota Vikings(2006–2010)"] }])).map careerTripleKK :=
  ⟨claim_C9_amended.1 "Bill Walsh" (by decide),
   claim_C9_amended.2.1
     [SElem.p "He later served under Bill Belichick.",
      SElem.ulist [{ text := "Bill Belichick",
                     links := [{ title := some "Bill Belichick", text := "Bill Belichick" }] }]]
     (by decide),
   claim_C9_amended.2.2
     [{ header := some "Coaching career", cells := [] },
      { header := none, cells := ["Minnesota Vikings(2006–2010)"] }]
     (by decide)⟩

/-- Processing a fetched page never touches the processed-page counter (the
increment happens before `processPage` in the loop body, as in the source
where `total_scraped += 1` precedes the extraction). -/
theorem processPage_total (md : Nat) (e : Scrape.QEntry) (pg : PageData)
    (s : Scrape.CrawlState) :
    (Scrape.processPage md e pg s).totalScraped = s.totalScraped := rfl

/-- The crawl loop never pushes the processed-page counter above the page
budget. -/
theorem crawlLoop_budget (fetch : String → Option PageData)
    (max_pages max_depth : Nat) :
    ∀ (fuel : Nat) (s : Scrape.CrawlState), s.totalScraped ≤ max_pages →
      (Scrape.crawlLoop fetch max_pages max_depth fuel s).totalScraped ≤ max_pages := by
  intro fuel
  induction fuel with
  | zero => intro s hs; exact hs
  | succ n ih =>
    intro s hs
    rcases hq : s.queue with _ | ⟨e, rest⟩
    · simp only [Scrape.crawlLoop, hq]
      exact hs
    · simp only [Scrape.crawlLoop, hq]
      by_cases hlt : s.totalScraped < max_pages
      · rw [if_pos hlt]
        by_cases hvis : e.page ∈ s.visited
        · rw [if_pos hvis]
          exact ih _ hs
        · rw [if_neg hvis]
          rcases hf : fetch e.page with _ | page <;> simp only [hf]
          · exact ih _ hs
          · apply ih
            rw [processPage_total]
            exact hlt
      · rw [if_neg hlt]
        exact hs

/-- Once the counter has reached the budget, the loop changes nothing,
however many entries remain in the queue. -/
theorem crawlLoop_stops (fetch : String → Option PageData)
    (max_pages max_depth : Nat) :
    ∀ (fuel : Nat) (s : Scrape.CrawlState), max_pages ≤ s.totalScraped →
      Scrape.crawlLoop fetch max_pages max_depth fuel s = s := by
  intro fuel s hs
  cases fuel with
  | zero => rfl
  | succ n =>
    rcases hq : s.queue with _ | ⟨e, rest⟩
    · simp only [Scrape.crawlLoop, hq]
    · simp only [Scrape.crawlLoop, hq]
      rw [if_neg (by omega)]

/-- Claim C5: the crawl engine respects the page budget — for every fetch
function, queue contents and budget N, the processed-page counter never
exceeds N, and once it has reached N the loop processes nothing further
regardless of how many entries remain in the queue; in particular a crawl
started from any seed list stays within the script's budget of 300. -/
theorem claim_C5 :
    (∀ (fetch : String → Option PageData) (budget depth fuel : Nat)
        (s : Scrape.CrawlState), s.totalScraped ≤ budget →
        (Scrape.crawlLoop fetch budget depth fuel s).totalScraped ≤ budget)
    ∧ (∀ (fetch : String → Option PageData) (budget depth fuel : Nat)
        (s : Scrape.CrawlState), budget ≤ s.totalScraped →
        Scrape.crawlLoop fetch budget depth fuel s = s)
    ∧ (∀ (fetch : String → Option PageData) (seeds : List Scrape.SeedCoach) (fuel : Nat),
        (Scrape.crawlLoop fetch Scrape.max_pages Scrape.max_depth fuel
          (Scrape.initState seeds)).totalScraped ≤ Scrape.max_pages) := by
  refine ⟨?_, ?_, ?_⟩
  · intro fetch budget depth fuel s hs
    exact crawlLoop_budget fetch budget depth fuel s hs
  · intro fetch budget depth fuel s hs
    exact crawlLoop_stops fetch budget depth fuel s hs
  · intro fetch seeds fuel
    exact crawlLoop_budget fetch Scrape.max_pages Scrape.max_depth fuel
      (Scrape.initState seeds) (by simp [Scrape.initState])

/-- Witness for C5: a concrete two-entry queue with a budget of 1, and a
saturated state that the loop leaves untouched. -/
theorem claim_C5_witness :
    (Scrape.crawlLoop (fun _ => none) 1 5 10
      { coaches := [], connections := [], connSet := [], visited := [],
        careerData := [],
        queue := [{ name := "A B", page := "A B", team := none, isCurrent := true },
                  { name := "C D", page := "C D", team := none, isCurrent := true }],
        depthMap := [], totalScraped := 0 }).totalScraped ≤ 1
    ∧ Scrape.crawlLoop (fun _ => none) 1 5 10
      { coaches := [], connections := [], connSet := [], visited := [],
        careerData := [],
        queue := [{ name := "A B", page := "A B", team := none, isCurrent := true }],
        depthMap := [], totalScraped := 1 } =
      { coaches := [], connections := [], connSet := [], visited := [],
        careerData := [],
        queue := [{ name := "A B", page := "A B", team := none, isCurrent := true }],
        depthMap := [], totalScraped := 1 } :=
  ⟨claim_C5.1 (fun _ => none) 1 5 10 _ (by decide),
   claim_C5.2.1 (fun _ => none) 1 5 10 _ (by decide)⟩

/-- The guarded insertion at the heart of every edge-adding site: when
neither direction of the new edge's pair is in the duplicate-check set, the
appended list is still pairwise-unique and the grown set still covers it. -/
theorem connInv_append {conns : List Conn} {cset : List (String × String)}
    (h : ConnInv conns cset) (c : Conn)
    (hguard : ¬ ((c.source, c.target) ∈ cset ∨ (c.target, c.source) ∈ cset)) :
    ConnInv (conns ++ [c]) ((c.source, c.target) :: cset) := by
  obtain ⟨hpw, hmem⟩ := h
  constructor
  · rw [unorderedPairUnique, List.pairwise_append]
    refine ⟨hpw, by simp [unorderedPairUnique], ?_⟩
    intro a ha b hb
    rcases List.mem_singleton.mp hb with rfl
    intro hcon
    apply hguard
    have hpair := hmem a ha
    rcases hcon with ⟨h1, h2⟩ | ⟨h1, h2⟩
    · left
      rw [← h1, ← h2]
      exact hpair
    · right
      rw [← h1, ← h2]
      exact hpair
  · intro x hx
    rcases List.mem_append.mp hx with hx' | hx'
    · exact List.mem_cons_of_mem _ (hmem x hx')
    · rcases List.mem_singleton.mp hx' with rfl
      exact List.mem_cons_self _ _

/-- `Scrape.memberStep` preserves the connection invariant. -/
theorem memberStep_connInv (cid : String) (cd md : Nat) (visited : List String)
    (st : List Conn × List (String × String) × List Coach × List Scrape.QEntry
      × List (String × Nat))
    (m : TreeMember) (h : ConnInv st.1 st.2.1) :
    ConnInv (Scrape.memberStep cid cd md visited st m).1
      (Scrape.memberStep cid cd md visited st m).2.1 := by
  obtain ⟨conns, cset, coaches, queue, depthMap⟩ := st
  unfold Scrape.memberStep
  simp only
  set linked_id := make_id m.linkText
  set pr := if m.rel = "mentor" then (linked_id, cid) else (cid, linked_id) with hpr
  by_cases hdup : (pr.1, pr.2) ∈ cset ∨ (pr.2, pr.1) ∈ cset
  · rw [if_pos hdup]
    exact h
  · rw [if_neg hdup]
    exact connInv_append h _ hdup

/-- `Scrape.processPage` preserves the connection invariant. -/
theorem processPage_connInv (md : Nat) (e : Scrape.QEntry) (pg : PageData)
    (s : Scrape.CrawlState) (h : ConnInv s.connections s.connSet) :
    ConnInv (Scrape.processPage md e pg s).connections
      (Scrape.processPage md e pg s).connSet := by
  have hfold := foldl_preserve
    (fun (st : List Conn × List (String × String) × List Coach
      × List Scrape.QEntry × List (String × Nat)) => ConnInv st.1 st.2.1)
    (Scrape.memberStep (make_id e.name)
      ((lookupAssoc s.depthMap e.page).getD 0) md s.visited)
    (memberStep_connInv _ _ _ _)
    (Scrape.parse_coaching_tree_section pg.sectionElems)
    (s.connections, s.connSet,
     (if s.coaches.any (fun x => x.id = make_id e.name) then s.coaches
      else s.coaches ++ [{ id := make_id e.name, name := e.name,
                           current_team := e.team, is_current_hc := e.isCurrent }]),
     s.queue, s.depthMap) h
  exact hfold

/-- The crawl loop preserves the connection invariant. -/
theorem crawlLoop_connInv (fetch : String → Option PageData) (mp md : Nat) :
    ∀ (fuel : Nat) (s : Scrape.CrawlState), ConnInv s.connections s.connSet →
      ConnInv (Scrape.crawlLoop fetch mp md fuel s).connections
        (Scrape.crawlLoop fetch mp md fuel s).connSet := by
  intro fuel
  induction fuel with
  | zero => intro s hs; exact hs
  | succ n ih =>
    intro s hs
    rcases hq : s.queue with _ | ⟨e, rest⟩
    · simp only [Scrape.crawlLoop, hq]
      exact hs
    · simp only [Scrape.crawlLoop, hq]
      by_cases hlt : s.totalScraped < mp
      · rw [if_pos hlt]
        by_cases hvis : e.page ∈ s.visited
        · rw [if_pos hvis]
          exact ih _ hs
        · rw [if_neg hvis]
          rcases hf : fetch e.page with _ | page <;> simp only [hf]
          · exact ih _ hs
          · exact ih _ (processPage_connInv md e page _ hs)
      · rw [if_neg hlt]
        exact hs

/-- `Scrape.overlapAdd` preserves the connection invariant. -/
theorem overlapAdd_connInv (cid_a cid_b : String)
    (ca cb : Scrape.CareerEntry) (st : List Conn × List (String × String))
    (h : ConnInv st.1 st.2) :
    ConnInv (Scrape.overlapAdd cid_a cid_b ca cb st).1
      (Scrape.overlapAdd cid_a cid_b ca cb st).2 := by
  obtain ⟨conns, cset⟩ := st
  unfold Scrape.overlapAdd
  simp only
  by_cases hcond : ca.team ≠ "" ∧ cb.team ≠ "" ∧ ca.team = cb.team ∧ ca.team ≠ "Unknown"
      ∧ ca.year_start ≠ 0 ∧ cb.year_start ≠ 0 ∧ ca.year_end ≠ 0 ∧ cb.year_end ≠ 0
  · rw [if_pos hcond]
    by_cases hle : max ca.year_start cb.year_start ≤ min ca.year_end cb.year_end
    · rw [if_pos hle]
      by_cases hdup : (cid_a, cid_b) ∈ cset ∨ (cid_b, cid_a) ∈ cset
      · rw [if_pos hdup]
        exact h
      · rw [if_neg hdup]
        exact connInv_append h _ hdup
    · rw [if_neg hle]
      exact h
  · rw [if_neg hcond]
    exact h

/-- The pairwise career cross-reference preserves the connection invariant. -/
theorem overlapLoop_connInv :
    ∀ (cd : List (String × List Scrape.CareerEntry))
      (st : List Conn × List (String × String)), ConnInv st.1 st.2 →
      ConnInv (Scrape.overlapLoop cd st).1 (Scrape.overlapLoop cd st).2 := by
  intro cd
  induction cd with
  | nil => intro st h; exact h
  | cons p rest ih =>
    intro st h
    obtain ⟨cid_a, ents_a⟩ := p
    show ConnInv (Scrape.overlapLoop rest
        (rest.foldl (fun st q => Scrape.overlapPair cid_a ents_a q.1 q.2 st) st)).1 _
    apply ih
    apply foldl_preserve (fun (st : List Conn × List (String × String)) => ConnInv st.1 st.2)
    · intro b q hb
      unfold Scrape.overlapPair
      apply foldl_preserve (fun (st : List Conn × List (String × String)) => ConnInv st.1 st.2)
      · intro b2 ca hb2
        apply foldl_preserve (fun (st : List Conn × List (String × String)) => ConnInv st.1 st.2)
        · intro b3 cb hb3
          exact overlapAdd_connInv cid_a q.1 ca cb b3 hb3
        · exact hb2
      · exact hb
    · exact h

/-- The crawl's final connection list has unique unordered pairs: built
through guarded insertion from the empty state, cross-referenced with the
same guard, and then only filtered. -/
theorem scrape_pairUnique (fetch : String → Option PageData)
    (seeds : List Scrape.SeedCoach) (fuel : Nat) :
    unorderedPairUnique (Scrape.scrape_coaching_trees fetch seeds fuel).connections := by
  have hinit : ConnInv (Scrape.initState seeds).connections
      (Scrape.initState seeds).connSet := by
    constructor
    · simp [Scrape.initState, unorderedPairUnique]
    · intro c hc
      simp [Scrape.initState] at hc
  have hloop := crawlLoop_connInv fetch Scrape.max_pages Scrape.max_depth fuel
    (Scrape.initState seeds) hinit
  set s := Scrape.crawlLoop fetch Scrape.max_pages Scrape.max_depth fuel
    (Scrape.initState seeds) with hsdef
  have hover := overlapLoop_connInv s.careerData (s.connections, s.connSet) hloop
  show unorderedPairUnique ((Scrape.overlapLoop s.careerData
    (s.connections, s.connSet)).1.filter _)
  exact List.Pairwise.filter _ hover.1

/-- `PatchMC.connStep` preserves the connection invariant (its insertion is
guarded by the same two-direction duplicate check). -/
theorem connStep_connInv (ids : List String)
    (st : List Conn × List (String × String)) (nc : String × String × String)
    (h : ConnInv st.1 st.2) :
    ConnInv (PatchMC.connStep ids st nc).1 (PatchMC.connStep ids st nc).2 := by
  obtain ⟨conns, cset⟩ := st
  obtain ⟨source, target, context⟩ := nc
  unfold PatchMC.connStep
  show ConnInv
    (if (source, target) ∈ cset ∨ (target, source) ∈ cset then (conns, cset)
     else if ¬ (source ∈ ids) then (conns, cset)
     else if ¬ (target ∈ ids) then (conns, cset)
     else (conns ++ [{ source := source, target := target, type := "coaching_tree",
                       years := none, context := some context }],
           (source, target) :: cset)).1
    (if (source, target) ∈ cset ∨ (target, source) ∈ cset then (conns, cset)
     else if ¬ (source ∈ ids) then (conns, cset)
     else if ¬ (target ∈ ids) then (conns, cset)
     else (conns ++ [{ source := source, target := target, type := "coaching_tree",
                       years := none, context := some context }],
           (source, target) :: cset)).2
  by_cases hdup : (source, target) ∈ cset ∨ (target, source) ∈ cset
  · rw [if_pos hdup]
    exact h
  · rw [if_neg hdup]
    by_cases hsrc : source ∈ ids
    · rw [if_neg (by simpa using hsrc)]
      by_cases htgt : target ∈ ids
      · rw [if_neg (by simpa using htgt)]
        exact connInv_append h _ hdup
      · rw [if_pos (by simpa using htgt)]
        exact h
    · rw [if_pos (by simpa using hsrc)]
      exact h

/-- `patch_missing_connections.py` preserves pairwise uniqueness of the
unordered connection pairs. -/
theorem patchMC_pairUnique (d : Dataset) (h : unorderedPairUnique d.connections) :
    unorderedPairUnique (PatchMC.main d).connections := by
  have hbase : ConnInv d.connections
      (d.connections.map (fun c => (c.source, c.target))) :=
    ⟨h, fun c hc => List.mem_map.mpr ⟨c, hc, rfl⟩⟩
  have hfold := foldl_preserve
    (fun (st : List Conn × List (String × String)) => ConnInv st.1 st.2)
    (PatchMC.connStep (PatchMC.coachState d).2)
    (connStep_connInv _) PatchMC.NEW_CONNECTIONS
    (d.connections, d.connections.map (fun c => (c.source, c.target))) hbase
  simp only [PatchMC.main]
  unfold PatchMC.connState
  exact hfold.1

/-- `PatchKK.scrapedStep` preserves the invariant over the kept connections
plus the accumulating new ones (the duplicate check consults the
pre-removal snapshot set, which covers every kept connection). -/
theorem scrapedStep_connInv (kept : List Conn)
    (st : List Conn × List (String × String) × List Coach × List String)
    (m : TreeMember) (h : ConnInv (kept ++ st.1) st.2.1) :
    ConnInv (kept ++ (PatchKK.scrapedStep st m).1) (PatchKK.scrapedStep st m).2.1 := by
  obtain ⟨newConns, cset, coaches, ids⟩ := st
  unfold PatchKK.scrapedStep
  simp only
  set linked_id := make_id m.linkText
  set pr := if m.rel = "mentor" then (linked_id, PatchKK.klint_id)
    else (PatchKK.klint_id, linked_id) with hpr
  by_cases hdup : (pr.1, pr.2) ∈ cset ∨ (pr.2, pr.1) ∈ cset
  · rw [if_pos hdup]
    exact h
  · rw [if_neg hdup]
    show ConnInv (kept ++ (newConns ++ [_])) _
    rw [← List.append_assoc]
    exact connInv_append h _ hdup

/-- `PatchKK.manualStep` preserves the same invariant. -/
theorem manualStep_connInv (kept : List Conn)
    (st : List Conn × List (String × String))
    (mc : String × String × String × Option String × String)
    (h : ConnInv (kept ++ st.1) st.2) :
    ConnInv (kept ++ (PatchKK.manualStep st mc).1) (PatchKK.manualStep st mc).2 := by
  obtain ⟨newConns, cset⟩ := st
  obtain ⟨src, tgt, ctype, years, ctx⟩ := mc
  unfold PatchKK.manualStep
  simp only
  by_cases hdup : (src, tgt) ∈ cset ∨ (tgt, src) ∈ cset
  · rw [if_pos hdup]
    exact h
  · rw [if_neg hdup]
    show ConnInv (kept ++ (newConns ++ [_])) _
    rw [← List.append_assoc]
    exact connInv_append h _ hdup

/-- `patch_klint_kubiak.py` preserves pairwise uniqueness of the unordered
connection pairs, for every fetch result. -/
theorem patchKK_pairUnique (fetched : Option PageData) (d : Dataset)
    (h : unorderedPairUnique d.connections) :
    unorderedPairUnique (PatchKK.main fetched d).connections := by
  have hkept : ConnInv (PatchKK.connsAfterRemoval d)
      (d.connections.map (fun c => (c.source, c.target))) := by
    constructor
    · exact List.Pairwise.filter _ h
    · intro c hc
      exact List.mem_map.mpr ⟨c, (List.mem_filter.mp hc).1, rfl⟩
  have hscraped : ConnInv (PatchKK.connsAfterRemoval d ++ (PatchKK.scrapedState fetched d).1)
      (PatchKK.scrapedState fetched d).2.1 := by
    unfold PatchKK.scrapedState
    cases fetched with
    | none =>
      simpa using hkept
    | some page =>
      have hbase : ConnInv (PatchKK.connsAfterRemoval d ++ [])
          (d.connections.map (fun c => (c.source, c.target))) := by
        simpa using hkept
      exact foldl_preserve
        (fun (st : List Conn × List (String × String) × List Coach × List String) =>
          ConnInv (PatchKK.connsAfterRemoval d ++ st.1) st.2.1)
        PatchKK.scrapedStep (scrapedStep_connInv _)
        (PatchKK.parse_coaching_tree_section page.sectionElems) _ hbase
  set st := PatchKK.scrapedState fetched d with hst
  obtain ⟨newConns1, cset1, coaches2, ids1⟩ := st
  simp only at hscraped
  have hmanual := foldl_preserve
    (fun (st2 : List Conn × List (String × String)) =>
      ConnInv (PatchKK.connsAfterRemoval d ++ st2.1) st2.2)
    PatchKK.manualStep (manualStep_connInv _) PatchKK.manualConnections
    (newConns1, cset1) hscraped
  show unorderedPairUnique (PatchKK.main fetched d).connections
  simp only [PatchKK.main, PatchKK.manualState, ← hst]
  exact hmanual.1

/-- Claim C3: each unordered pair `{source, target}` appears at most once
in the connections list — the crawl produces such a list from scratch
(every insertion, coaching-tree or career-overlap, is blocked when an edge
between the same two ids already exists in either direction, and the final
filter only removes elements), and both patch merges preserve the property
of their input dataset. -/
theorem claim_C3 :
    (∀ (fetch : String → Option PageData) (seeds : List Scrape.SeedCoach) (fuel : Nat),
        unorderedPairUnique (Scrape.scrape_coaching_trees fetch seeds fuel).connections)
    ∧ (∀ d : Dataset, unorderedPairUnique d.connections →
        unorderedPairUnique (PatchMC.main d).connections)
    ∧ (∀ (fetched : Option PageData) (d : Dataset), unorderedPairUnique d.connections →
        unorderedPairUnique (PatchKK.main fetched d).connections) :=
  ⟨scrape_pairUnique, patchMC_pairUnique, patchKK_pairUnique⟩

/-- Witness for C3 at a concrete crawl and concrete patch inputs. -/
theorem claim_C3_witness :
    unorderedPairUnique (Scrape.scrape_coaching_trees (fun _ => none) [] 5).connections
    ∧ unorderedPairUnique (PatchMC.main { coaches := [], connections := [] }).connections
    ∧ unorderedPairUnique (PatchKK.main none { coaches := [], connections := [] }).connections :=
  ⟨claim_C3.1 (fun _ => none) [] 5,
   claim_C3.2.1 { coaches := [], connections := [] } (by decide),
   claim_C3.2.2 none { coaches := [], connections := [] } (by decide)⟩
